import Mathlib

/-!
Verification of the grant-finder repository (CT RISE dashboard variants).

This file gives a shallow embedding, in Lean 4, of the pure logic of the
repository's Python sources (`analyzer.py`, `app.py`, `grant_app_final.py`,
`grant_app_Xfinal.py`, `test.py`, `grant_database_final.py`) and proves or
refutes the specification claims about them.

External services (the OpenAI chat / embedding endpoints, Streamlit, the
network) are modelled as black-box inputs, exactly as the specification
treats them: an embedding call is an oracle `Nat → Option v` giving the
outcome of each attempt (`none` = rate-limit error), the cosine similarity
produced by sklearn on two embedding vectors is an input rational, and a
chat response is an input string.  Machine floats are modelled by `ℚ`.
-/

set_option maxHeartbeats 2000000
set_option maxRecDepth 8000

namespace GrantFinder

/-! ### Python `round(x, 1)` — round-half-even to one decimal place -/

/-- Round-half-to-even of a rational to an integer: the tie-breaking rule of
Python's builtin `round`. -/
def rhe (q : ℚ) : ℤ :=
  if q - (q.floor : ℚ) < 1/2 then q.floor
  else if 1/2 < q - (q.floor : ℚ) then q.floor + 1
  else if q.floor % 2 = 0 then q.floor else q.floor + 1

/-- Python `round(x, 1)`: round to one decimal digit, ties to even. -/
def pyRound1 (q : ℚ) : ℚ := ((rhe (q * 10) : ℚ)) / 10

/-! ### Similarity scoring

`analyzer.py` line 107: `match = cosine_similarity([embed(summary)],[embed(MISSION)])[0][0]*100`
and line 129 stores `round(match, 1)`; `grant_database_final.py` lines 74–78
computes `cosine_similarity(...)[0][0] * 100` followed by `.round(1)`.
The cosine similarity value delivered by sklearn on the two embedding
vectors is the black-box input `cos`. -/

/-- The match score the code computes from a cosine-similarity value:
`round(cos * 100, 1)`.  There is no clamping at 0 in the source. -/
def matchScore (cos : ℚ) : ℚ := pyRound1 (cos * 100)

/-- Modelled from the spec's words (§4.4 Contract), for comparison with
`matchScore`: `max(0, cosine_similarity(...)) * 100`, rounded to 1 decimal. -/
def specScore (cos : ℚ) : ℚ := pyRound1 (max 0 cos * 100)

/-- `analyzer.py` lines 78–81: feasibility banding from the (unrounded)
match percentage. -/
def feasibility_from_match (m : ℚ) : String :=
  if 75 ≤ m then "High"
  else if 50 ≤ m then "Medium"
  else "Low"

/-! ### Deadline parsing — `analyzer.py` lines 63–66

```
def deadline_ok(dl:str):
    if dl.lower()=="rolling": return True
    try: return dt.datetime.strptime(dl[:10],"%Y-%m-%d").date() >= dt.date.today()
    except: return False
```

`datetime.strptime(s, "%Y-%m-%d")` compiles (CPython `_strptime.py`) to the
regex `(?P<Y>\d\d\d\d)-(?P<m>1[0-2]|0[1-9]|[1-9])-(?P<d>3[01]|[12]\d|0[1-9]|[1-9])`,
requires the whole string to be consumed, and then builds a `datetime`,
which raises `ValueError` for a day beyond the month's length or a year
below `MINYEAR = 1`.  The functions below transcribe exactly that. -/

structure Date where
  y : Nat
  m : Nat
  d : Nat
deriving DecidableEq

/-- Calendar order on dates (year, then month, then day). -/
def dateLe (a b : Date) : Bool :=
  if a.y < b.y then true
  else if b.y < a.y then false
  else if a.m < b.m then true
  else if b.m < a.m then false
  else a.d ≤ b.d

def digitVal (c : Char) : Nat := c.toNat - '0'.toNat

/-- ASCII lowercasing of one character (`str.lower()` on the ASCII range). -/
def lowerChar (c : Char) : Char :=
  if 'A' ≤ c ∧ c ≤ 'Z' then Char.ofNat (c.toNat + 32) else c

/-- Python `str.lower()` (ASCII model). -/
def lowerStr (s : String) : String := String.mk (s.data.map lowerChar)

/-- Gregorian leap year, as used by `datetime`. -/
def isLeap (y : Nat) : Bool := y % 4 = 0 && (y % 100 != 0 || y % 400 = 0)

def daysInMonth (y m : Nat) : Nat :=
  if m = 2 then (if isLeap y then 29 else 28)
  else if m = 4 ∨ m = 6 ∨ m = 9 ∨ m = 11 then 30
  else 31

/-- The `%m` component: regex alternatives `1[0-2]|0[1-9]|[1-9]`, tried in
order, returning the month value and the unconsumed input. -/
def parseMM : List Char → Option (Nat × List Char)
  | [] => none
  | c :: rest =>
    if c = '1' then
      match rest with
      | c2 :: rest2 =>
        if '0' ≤ c2 ∧ c2 ≤ '2' then some (10 + digitVal c2, rest2) else some (1, rest)
      | [] => some (1, [])
    else if c = '0' then
      match rest with
      | c2 :: rest2 =>
        if '1' ≤ c2 ∧ c2 ≤ '9' then some (digitVal c2, rest2) else none
      | [] => none
    else if '2' ≤ c ∧ c ≤ '9' then some (digitVal c, rest)
    else none

/-- The `%d` component: regex alternatives `3[01]|[12]\d|0[1-9]|[1-9]`, tried
in order. -/
def parseDD : List Char → Option (Nat × List Char)
  | [] => none
  | c :: rest =>
    if c = '3' then
      match rest with
      | c2 :: rest2 =>
        if c2 = '0' ∨ c2 = '1' then some (30 + digitVal c2, rest2) else some (3, rest)
      | [] => some (3, [])
    else if c = '1' ∨ c = '2' then
      match rest with
      | c2 :: rest2 =>
        if c2.isDigit then some (10 * digitVal c + digitVal c2, rest2) else some (digitVal c, rest)
      | [] => some (digitVal c, [])
    else if c = '0' then
      match rest with
      | c2 :: rest2 =>
        if '1' ≤ c2 ∧ c2 ≤ '9' then some (digitVal c2, rest2) else none
      | [] => none
    else if '4' ≤ c ∧ c ≤ '9' then some (digitVal c, rest)
    else none

/-- `datetime.strptime(s, "%Y-%m-%d").date()`: `some` date on success,
`none` when CPython would raise `ValueError`. -/
def parseYMD (s : String) : Option Date :=
  match s.data with
  | a :: b :: c :: d :: '-' :: rest =>
    if a.isDigit ∧ b.isDigit ∧ c.isDigit ∧ d.isDigit then
      let y := 1000 * digitVal a + 100 * digitVal b + 10 * digitVal c + digitVal d
      match parseMM rest with
      | some (m, '-' :: rest2) =>
        match parseDD rest2 with
        | some (dd, []) =>
          if 1 ≤ y ∧ dd ≤ daysInMonth y m then some ⟨y, m, dd⟩ else none
        | _ => none
      | _ => none
    else none
  | _ => none

/-- `analyzer.py` `deadline_ok`, with the evaluation-time `dt.date.today()`
passed in explicitly. -/
def deadline_ok (today : Date) (dl : String) : Bool :=
  if lowerStr dl = "rolling" then true
  else
    match parseYMD (String.mk (dl.data.take 10)) with
    | some dte => dateLe today dte
    | none => false

/-! ### JSON values and `json.loads`

A faithful executable model of Python's `json.loads` on the JSON grammar:
`some` = the parsed value, `none` = `json.JSONDecodeError`.  Numbers keep
their lexeme (their numeric value never matters to the code under study);
Python's acceptance of the `NaN` / `Infinity` constants is included.
Duplicate object keys are kept in textual order; `jgetLast` below realises
the last-key-wins semantics of the Python `dict` built by `json.loads`. -/

inductive Json where
  | null : Json
  | bool (b : Bool) : Json
  | num (lexeme : String) : Json
  | str (s : String) : Json
  | arr (elems : List Json) : Json
  | obj (fields : List (String × Json)) : Json

/-- JSON whitespace (RFC 8259, also what `json.loads` skips). -/
def jsonWS (c : Char) : Bool := c = ' ' ∨ c = '\t' ∨ c = '\n' ∨ c = '\r'

def skipWS : List Char → List Char
  | [] => []
  | c :: rest => if jsonWS c then skipWS rest else c :: rest

def hexVal (c : Char) : Option Nat :=
  if '0' ≤ c ∧ c ≤ '9' then some (digitVal c)
  else if 'a' ≤ c ∧ c ≤ 'f' then some (c.toNat - 'a'.toNat + 10)
  else if 'A' ≤ c ∧ c ≤ 'F' then some (c.toNat - 'A'.toNat + 10)
  else none

/-- Body of a JSON string after the opening quote; strict mode (raw control
characters below U+0020 are rejected), escapes as in RFC 8259. -/
def parseStrBody (fuel : Nat) (cs : List Char) : Option (List Char × List Char) :=
  match fuel, cs with
  | 0, _ => none
  | _, [] => none
  | fuel + 1, c :: rest =>
    if c = '"' then some ([], rest)
    else if c = '\\' then
      match rest with
      | [] => none
      | e :: rest2 =>
        if e = 'u' then
          match rest2 with
          | h1 :: h2 :: h3 :: h4 :: rest3 =>
            match hexVal h1, hexVal h2, hexVal h3, hexVal h4 with
            | some a, some b, some c3, some d =>
              (parseStrBody fuel rest3).map
                (fun p => (Char.ofNat (4096 * a + 256 * b + 16 * c3 + d) :: p.1, p.2))
            | _, _, _, _ => none
          | _ => none
        else
          let dec : Option Char :=
            if e = '"' then some '"'
            else if e = '\\' then some '\\'
            else if e = '/' then some '/'
            else if e = 'b' then some (Char.ofNat 8)
            else if e = 'f' then some (Char.ofNat 12)
            else if e = 'n' then some '\n'
            else if e = 'r' then some '\r'
            else if e = 't' then some '\t'
            else none
          match dec with
          | some d => (parseStrBody fuel rest2).map (fun p => (d :: p.1, p.2))
          | none => none
    else if c.toNat < 32 then none
    else (parseStrBody fuel rest).map (fun p => (c :: p.1, p.2))

/-- Lexeme of a JSON number (sign, integer part without leading zeros,
optional fraction, optional exponent). -/
def parseNumLex (cs : List Char) : Option (List Char × List Char) :=
  let afterSign : List Char × List Char :=
    match cs with
    | '-' :: rest => (['-'], rest)
    | _ => ([], cs)
  let sgn := afterSign.1
  let body := afterSign.2
  let intPart : Option (List Char × List Char) :=
    match body with
    | '0' :: rest => some (['0'], rest)
    | c :: rest =>
      if '1' ≤ c ∧ c ≤ '9' then
        let digs := rest.takeWhile Char.isDigit
        some (c :: digs, rest.drop digs.length)
      else none
    | [] => none
  match intPart with
  | none => none
  | some (ip, rest1) =>
    let fracPart : List Char × List Char :=
      match rest1 with
      | '.' :: d :: rest2 =>
        if d.isDigit then
          let digs := rest2.takeWhile Char.isDigit
          ('.' :: d :: digs, rest2.drop digs.length)
        else ([], rest1)
      | _ => ([], rest1)
    let rest2 := fracPart.2
    let expPart : List Char × List Char :=
      match rest2 with
      | e :: tail =>
        if e = 'e' ∨ e = 'E' then
          match tail with
          | s :: d :: tail2 =>
            if (s = '+' ∨ s = '-') ∧ d.isDigit then
              let digs := tail2.takeWhile Char.isDigit
              (e :: s :: d :: digs, tail2.drop digs.length)
            else if s.isDigit then
              let digs := tail.takeWhile Char.isDigit
              (e :: digs, tail.drop digs.length)
            else ([], rest2)
          | [s] =>
            if s.isDigit then (e :: [s], []) else ([], rest2)
          | [] => ([], rest2)
        else ([], rest2)
      | [] => ([], rest2)
    let lex := sgn ++ ip ++ fracPart.1 ++ expPart.1
    some (lex, expPart.2)

def litMatch : List Char → List Char → Option (List Char)
  | [], cs => some cs
  | l :: ls, c :: cs => if c = l then litMatch ls cs else none
  | _ :: _, [] => none

mutual

/-- One JSON value at the head of the input (leading whitespace already
skipped); returns the value and the unconsumed input. -/
def parseVal (fuel : Nat) (cs : List Char) : Option (Json × List Char) :=
  match fuel with
  | 0 => none
  | fuel + 1 =>
    match cs with
    | [] => none
    | c :: rest =>
      if c = '{' then
        match skipWS rest with
        | '}' :: rest2 => some (Json.obj [], rest2)
        | rest2 => (parseMembers fuel rest2).map (fun p => (Json.obj p.1, p.2))
      else if c = '[' then
        match skipWS rest with
        | ']' :: rest2 => some (Json.arr [], rest2)
        | rest2 => (parseElems fuel rest2).map (fun p => (Json.arr p.1, p.2))
      else if c = '"' then
        (parseStrBody (rest.length + 1) rest).map (fun p => (Json.str (String.mk p.1), p.2))
      else
        match litMatch "true".data cs with
        | some rest2 => some (Json.bool true, rest2)
        | none =>
        match litMatch "false".data cs with
        | some rest2 => some (Json.bool false, rest2)
        | none =>
        match litMatch "null".data cs with
        | some rest2 => some (Json.null, rest2)
        | none =>
        match litMatch "NaN".data cs with
        | some rest2 => some (Json.num "NaN", rest2)
        | none =>
        match litMatch "Infinity".data cs with
        | some rest2 => some (Json.num "Infinity", rest2)
        | none =>
        match litMatch "-Infinity".data cs with
        | some rest2 => some (Json.num "-Infinity", rest2)
        | none =>
          (parseNumLex cs).map (fun p => (Json.num (String.mk p.1), p.2))

/-- Nonempty `key : value` member list of an object, up to and including the
closing brace. -/
def parseMembers (fuel : Nat) (cs : List Char) : Option (List (String × Json) × List Char) :=
  match fuel with
  | 0 => none
  | fuel + 1 =>
    match cs with
    | '"' :: rest =>
      match parseStrBody (rest.length + 1) rest with
      | none => none
      | some (key, rest2) =>
        match skipWS rest2 with
        | ':' :: rest3 =>
          match parseVal fuel (skipWS rest3) with
          | none => none
          | some (v, rest4) =>
            match skipWS rest4 with
            | ',' :: rest5 =>
              (parseMembers fuel (skipWS rest5)).map
                (fun p => ((String.mk key, v) :: p.1, p.2))
            | '}' :: rest5 => some ([(String.mk key, v)], rest5)
            | _ => none
        | _ => none
    | _ => none

/-- Nonempty element list of an array, up to and including the closing
bracket. -/
def parseElems (fuel : Nat) (cs : List Char) : Option (List Json × List Char) :=
  match fuel with
  | 0 => none
  | fuel + 1 =>
    match parseVal fuel cs with
    | none => none
    | some (v, rest) =>
      match skipWS rest with
      | ',' :: rest2 => (parseElems fuel (skipWS rest2)).map (fun p => (v :: p.1, p.2))
      | ']' :: rest2 => some ([v], rest2)
      | _ => none

end

/-- `json.loads`: `some` = parsed value, `none` = `JSONDecodeError`
(including the trailing-data error). -/
def jsonParse (s : String) : Option Json :=
  match parseVal (2 * s.length + 4) (skipWS s.data) with
  | some (j, rest) => if skipWS rest = [] then some j else none
  | none => none

/-! ### The regex extraction of `analyzer.py scrape` (lines 52–61)

```
m=re.search(r"```json\s*(\{.*?\}|\[.*?\])\s*```",raw,re.S) or re.search(r"(\{.*?\}|\[.*?\])",raw,re.S)
if not m: return None
obj=json.loads(m.group(1)); obj=obj[0] if isinstance(obj,list) else obj
obj["url"]=url
return {k:obj.get(k,"N/A") for k in("title","sponsor","amount","deadline","summary","url")}
```

`re.search` scans start positions left to right; `\{.*?\}` (with `re.S`) is
non-greedy, so at a given start it matches up to the *first* closing brace
from which the remainder of the pattern can still match.  For the bare
pattern the remainder is empty, so the span runs to the first `}` after the
`{`.  For the fenced pattern the span must be followed by `\s*` + three
backticks. -/

/-- Python `\s` on ASCII input. -/
def pyWS (c : Char) : Bool :=
  c = ' ' ∨ c = '\t' ∨ c = '\n' ∨ c = '\r' ∨ c = Char.ofNat 12 ∨ c = Char.ofNat 11

def dropPyWS : List Char → List Char
  | [] => []
  | c :: rest => if pyWS c then dropPyWS rest else c :: rest

def startsWith3Ticks (cs : List Char) : Bool :=
  match cs with
  | '`' :: '`' :: '`' :: _ => true
  | _ => false

/-- Non-greedy `.*?close`: the span up to the first occurrence of `close`
(inclusive), or `none` if there is none. -/
def takeThroughFirst (close : Char) : List Char → Option (List Char)
  | [] => none
  | c :: rest =>
    if c = close then some [c]
    else (takeThroughFirst close rest).map (fun sp => c :: sp)

/-- Non-greedy `.*?close` constrained so that the rest of the pattern
(`\s*` + three backticks) matches after the closer: the span up to the first
such closer. -/
def takeThroughFenced (close : Char) : List Char → Option (List Char)
  | [] => none
  | c :: rest =>
    if c = close ∧ startsWith3Ticks (dropPyWS rest) then some [c]
    else (takeThroughFenced close rest).map (fun sp => c :: sp)

/-- The group of the fenced pattern when the literal ```` ```json ```` sits
exactly at the head of `cs`. -/
def fencedAt (cs : List Char) : Option (List Char) :=
  match litMatch "```json".data cs with
  | none => none
  | some rest =>
    match dropPyWS rest with
    | '{' :: tail => (takeThroughFenced '}' tail).map (fun sp => '{' :: sp)
    | '[' :: tail => (takeThroughFenced ']' tail).map (fun sp => '[' :: sp)
    | _ => none

/-- `re.search` for the fenced pattern: leftmost start position wins. -/
def fencedSearch : List Char → Option (List Char)
  | [] => none
  | c :: rest =>
    match fencedAt (c :: rest) with
    | some sp => some sp
    | none => fencedSearch rest

/-- `re.search(r"(\{.*?\}|\[.*?\])", raw, re.S)`: at the leftmost position,
`\{.*?\}` is tried before `\[.*?\]`. -/
def bareSearch : List Char → Option (List Char)
  | [] => none
  | c :: rest =>
    if c = '{' then
      match takeThroughFirst '}' rest with
      | some sp => some (c :: sp)
      | none => bareSearch rest
    else if c = '[' then
      match takeThroughFirst ']' rest with
      | some sp => some (c :: sp)
      | none => bareSearch rest
    else bareSearch rest

/-- The six keys of the record `scrape` returns, in source order. -/
def canonKeys : List String := ["title", "sponsor", "amount", "deadline", "summary", "url"]

/-- `dict.get`-compatible lookup in a parsed member list: the value of the
*last* occurrence of the key (later duplicate keys overwrite earlier ones in
the `dict` built by `json.loads`). -/
def jgetLast (fs : List (String × Json)) (k : String) : Option Json :=
  (fs.reverse.find? (fun p => p.1 == k)).map Prod.snd

/-- `obj["url"]=url` followed by
`{k:obj.get(k,"N/A") for k in("title","sponsor","amount","deadline","summary","url")}`. -/
def mkRecord (url : String) (fs : List (String × Json)) : List (String × Json) :=
  let fs2 := fs ++ [("url", Json.str url)]
  canonKeys.map (fun k => (k, (jgetLast fs2 k).getD (Json.str "N/A")))

/-- Possible outcomes of `scrape`: a returned record, the `None` return when
the regexes find nothing, or an uncaught Python exception escaping the
function (`json.JSONDecodeError`, `IndexError`, `TypeError`, …). -/
inductive ScrapeOut where
  | found (r : List (String × Json)) : ScrapeOut
  | noMatch : ScrapeOut
  | exn : ScrapeOut

/-- `obj=obj[0] if isinstance(obj,list) else obj` followed by the implicit
requirement that the result support item assignment and `.get`: the member
list when the value is a dict (or a list whose first element is a dict);
`none` when the subsequent operations would raise (`IndexError` on an empty
list, `TypeError`/`AttributeError` on any non-dict). -/
def scrapeObj : Json → Option (List (String × Json))
  | Json.obj fs => some fs
  | Json.arr (Json.obj fs :: _) => some fs
  | _ => none

/-- `analyzer.py scrape`, as a function of the url argument and of the raw
model response (the external chat call's output). -/
def scrape (url : String) (raw : String) : ScrapeOut :=
  match (fencedSearch raw.data).orElse (fun _ => bareSearch raw.data) with
  | none => ScrapeOut.noMatch
  | some span =>
    match jsonParse (String.mk span) with
    | none => ScrapeOut.exn
    | some j =>
      match scrapeObj j with
      | some fs => ScrapeOut.found (mkRecord url fs)
      | none => ScrapeOut.exn

/-! ### The grants table and the Analyze-Grant handler — `analyzer.py` lines 96–139 -/

/-- A row of the history table, one field per column of
`COLS = ["Title","Match%","Feasibility","Amount","Deadline","Sponsor","Grant Summary","URL","Recommendation"]`.
`Match%` is numeric (a float in the source); all other columns are strings. -/
structure GrantRow where
  title : String
  matchPct : ℚ
  feasibility : String
  amount : String
  deadline : String
  sponsor : String
  summary : String
  url : String
  recommendation : String
deriving DecidableEq

/-- The scraped record as consumed by the handler, in the ordinary case in
which the model supplied strings for all six keys. -/
structure GrantRec where
  title : String
  sponsor : String
  amount : String
  deadline : String
  summary : String
  url : String
deriving DecidableEq

/-- `analyzer.py` lines 103–104:
`(df["URL"].str.lower()==g["url"].lower()).any() or (df["Title"].str.lower()==g["title"].lower()).any()`. -/
def isDuplicate (tbl : List GrantRow) (g : GrantRec) : Bool :=
  (tbl.any (fun r => lowerStr r.url == lowerStr g.url)) ||
  (tbl.any (fun r => lowerStr r.title == lowerStr g.title))

/-- Comparison key of the table sort: the `Match%` column. -/
def rowLe (a b : GrantRow) : Prop := a.matchPct ≤ b.matchPct

instance : DecidableRel rowLe := fun a b => inferInstanceAs (Decidable (a.matchPct ≤ b.matchPct))

instance : IsTotal GrantRow rowLe := ⟨fun a b => le_total a.matchPct b.matchPct⟩

instance : IsTrans GrantRow rowLe := ⟨fun _ _ _ h h2 => le_trans h h2⟩

/-- `df.sort_values("Match%", ascending=False)` at row level.  pandas
(`core/sorting.py nargsort`) implements a descending sort as: reverse the
values, take an ascending `argsort`, and reverse the resulting indexer; at
row level that composite equals `(insertionSort ≤ l.reverse).reverse`
whenever the underlying numpy `argsort(kind="quicksort")` is stable — which
holds exactly when the array is below numpy's introsort cutoff
(`SMALL_QUICKSORT = 15`, i.e. at most 16 elements), where the kernel is a
stable insertion sort.  `npQuicksortArgsort` below is the kernel itself for
the general case. -/
def sort_values_desc (l : List GrantRow) : List GrantRow :=
  (List.insertionSort rowLe l.reverse).reverse

/-- What the Analyze-Grant handler reports for one URL. -/
inductive AnalyzeSignal where
  | parseFailed : AnalyzeSignal
  | deadlinePassed : AnalyzeSignal
  | alreadyPresent : AnalyzeSignal
  | added : AnalyzeSignal
deriving DecidableEq

/-- The Analyze-Grant handler of `analyzer.py` (lines 96–139) acting on the
table state: `g` is `scrape`'s result (`none` = could not parse), `cos` the
cosine similarity returned for the summary/mission embeddings, `short` the
one-sentence recommendation returned by the chat call.  On success the row
is appended, the table re-sorted by `Match%` descending, and the result
persisted (write-through). -/
def analyzeStep (today : Date) (tbl : List GrantRow) (g : Option GrantRec)
    (cos : ℚ) (short : String) : List GrantRow × AnalyzeSignal :=
  match g with
  | none => (tbl, AnalyzeSignal.parseFailed)
  | some g =>
    if ¬ deadline_ok today g.deadline then (tbl, AnalyzeSignal.deadlinePassed)
    else if isDuplicate tbl g then (tbl, AnalyzeSignal.alreadyPresent)
    else
      let m := cos * 100
      let newRow : GrantRow :=
        { title := g.title, matchPct := pyRound1 m, feasibility := feasibility_from_match m,
          amount := g.amount, deadline := g.deadline, sponsor := g.sponsor,
          summary := g.summary, url := g.url, recommendation := short }
      (sort_values_desc (tbl ++ [newRow]), AnalyzeSignal.added)

/-! ### Retry wrappers around the external calls

Each external call site is a black-box oracle `attempts : Nat → Option α`:
`attempts i` is the outcome of the `i`-th call attempt, `none` standing for
`openai.error.RateLimitError` (the only exception each loop catches) and
`some v` for a successful return.  Sleeping between attempts does not affect
the returned value and is not modelled. -/

/-- The common `for i in range(n): try: return f() except RateLimitError: sleep`
loop: the first success among attempts `i, i+1, …` within the remaining
budget. -/
def firstSuccessFrom {α : Type} (attempts : Nat → Option α) : Nat → Nat → Option α
  | 0, _ => none
  | n + 1, i =>
    match attempts i with
    | some v => some v
    | none => firstSuccessFrom attempts n (i + 1)

/-- `analyzer.py` line 20. -/
def API_RETRY : Nat := 4

/-- The `retry` decorator of `analyzer.py` lines 34–40: `some v` if some
attempt succeeds, `none` for the terminal
`st.error("OpenAI rate-limit; try later."); st.stop()` (the whole action is
aborted with a user-visible error). -/
def retry {α : Type} (attempts : Nat → Option α) : Option α :=
  firstSuccessFrom attempts API_RETRY 0

/-- `app.py` line 17. -/
def app_RETRIES : Nat := 3

/-- `app.py get_embedding` (lines 27–38): after exhausting its retries it
shows an error banner and then *returns* `[0.0] * 1536` — a fabricated
embedding vector — so the caller continues as if the call had succeeded. -/
def get_embedding (attempts : Nat → Option (List ℚ)) : List ℚ :=
  match firstSuccessFrom attempts app_RETRIES 0 with
  | some v => v
  | none => List.replicate 1536 0

/-- `grant_app_final.py` line 13 (`RETRIES`). -/
def gaf_RETRIES : Nat := 5

/-- `grant_app_final.py embed` (lines 40–47): same shape as
`app.py get_embedding` — returns `[0.0]*1536` after exhaustion. -/
def embed (attempts : Nat → Option (List ℚ)) : List ℚ :=
  match firstSuccessFrom attempts gaf_RETRIES 0 with
  | some v => v
  | none => List.replicate 1536 0

/-! ### The two source adapters of claim C8

`test.py fetch_grants` (lines 53–80) and
`grant_app_Xfinal.py get_grants_json` (lines 52–84).  The chat responses are
an oracle `responses : Nat → String` (`responses i` = the raw text of the
`i`-th prompt attempt; the inner OpenAI retry loop is assumed to succeed,
which is the situation claim C8 is about). -/

/-- `re.search(r"\[.*\]", raw, re.S)` / `re.search(r"\[[\s\S]*\]", raw)`:
greedy — from the first `[` through the *last* `]` after it. -/
def takeThroughLast (close : Char) : List Char → Option (List Char)
  | [] => none
  | c :: rest =>
    match takeThroughLast close rest with
    | some sp => some (c :: sp)
    | none => if c = close then some [c] else none

/-- The greedy bracket-salvage span, or `none` when the regex finds no
match. -/
def greedySpan : List Char → Option (List Char)
  | [] => none
  | c :: rest =>
    if c = '[' then
      match takeThroughLast ']' rest with
      | some sp => some (c :: sp)
      | none => greedySpan rest
    else greedySpan rest

/-- `test.py` line 16. -/
def NUM_ROWS : Nat := 10

/-- `test.py` line 22. -/
def PROMPT_TRY : Nat := 4

/-- `test.py` key order (line 73–74). -/
def testKeys : List String := ["title", "sponsor", "amount", "deadline", "url", "summary"]

/-- `{k: d.get(k, "N/A") for k in ("title","sponsor","amount","deadline","url","summary")}`. -/
def mkCleanRec (fs : List (String × Json)) : List (String × Json) :=
  testKeys.map (fun k => (k, (jgetLast fs k).getD (Json.str "N/A")))

/-- The `data` value of one `test.py fetch_grants` attempt:
`json.loads(raw)`, else the greedy `[...]` salvage re-parsed — whose failure
(`json.loads(m.group())` inside the `except` block) escapes as an uncaught
exception (`none`) — else the literal `[]` when there is no bracket span. -/
def attemptData (raw : String) : Option Json :=
  match jsonParse raw with
  | some j => some j
  | none =>
    match greedySpan raw.data with
    | some span => jsonParse (String.mk span)
    | none => some (Json.arr [])

/-- `for d in data: cleaned.append({k: d.get(k,"N/A") …})`: iterating a
list of objects builds the cleaned records; iterating anything whose items
lack `.get` (list elements that are not dicts, the string keys produced by
iterating a nonempty dict, the characters of a nonempty string) raises, and
a non-iterable (`int`, `float`, `bool`, `None`) raises `TypeError`;
iterating an empty dict or empty string yields no items. -/
def cleanOf : Json → Option (List (List (String × Json)))
  | Json.arr es =>
    es.foldr (fun e acc =>
      match e, acc with
      | Json.obj fs, some rs => some (mkCleanRec fs :: rs)
      | _, _ => none) (some [])
  | Json.obj [] => some []
  | Json.obj (_ :: _) => none
  | Json.str s => if s = "" then some [] else none
  | _ => none

/-- One attempt's cleaned record list (`none` = uncaught exception). -/
def attemptClean (raw : String) : Option (List (List (String × Json))) :=
  (attemptData raw).bind cleanOf

/-- Outcome of `test.py fetch_grants`: a returned list, the terminal
`st.error("Unable to obtain complete grant list from GPT."); st.stop()`
abort, or an uncaught exception. -/
inductive FetchOut where
  | ok (rs : List (List (String × Json))) : FetchOut
  | stopped : FetchOut
  | exn : FetchOut

/-- The `for _ in range(PROMPT_TRY)` loop of `test.py fetch_grants`:
return `cleaned[:NUM_ROWS]` as soon as an attempt yields at least
`NUM_ROWS` records, otherwise re-prompt; when the budget is exhausted,
abort via `st.stop()`. -/
def fetchLoop (responses : Nat → String) : Nat → Nat → FetchOut
  | _, 0 => FetchOut.stopped
  | i, n + 1 =>
    match attemptClean (responses i) with
    | none => FetchOut.exn
    | some cleaned =>
      if NUM_ROWS ≤ cleaned.length then FetchOut.ok (cleaned.take NUM_ROWS)
      else fetchLoop responses (i + 1) n

/-- `test.py fetch_grants` (lines 53–80). -/
def fetch_grants (responses : Nat → String) : FetchOut :=
  fetchLoop responses 0 PROMPT_TRY

/-- `grant_app_Xfinal.py` line 16. -/
def PROMPT_RETRIES : Nat := 3

/-- The attempt loop of `grant_app_Xfinal.py get_grants_json` (lines
52–84): first successful parse (direct, else salvaged — the salvage parse
failure is caught by `except Exception: pass` there) is returned *whatever
it is*; after the budget, `return []`. -/
def ggjLoop (responses : Nat → String) : Nat → Nat → Json
  | _, 0 => Json.arr []
  | i, n + 1 =>
    match jsonParse (responses i) with
    | some j => j
    | none =>
      match greedySpan (responses i).data with
      | some span =>
        match jsonParse (String.mk span) with
        | some j => j
        | none => ggjLoop responses (i + 1) n
      | none => ggjLoop responses (i + 1) n

/-- `grant_app_Xfinal.py get_grants_json`. -/
def get_grants_json (responses : Nat → String) : Json :=
  ggjLoop responses 0 PROMPT_RETRIES

/-! ### CSV persistence — `analyzer.py` lines 48–49

```
def load_history():  return pd.read_csv(CSV_PATH) if os.path.exists(CSV_PATH) else pd.DataFrame(columns=COLS)
def save_history(df): df.to_csv(CSV_PATH, index=False)
```

`to_csv` writes a header line and one comma-separated line per row,
quoting minimally (a field is wrapped in double quotes, with inner quotes
doubled, iff it contains a separator, quote or newline), and rendering the
float column `Match%` in decimal.  `read_csv` splits each line back into
fields, replaces every field found in its default NA-value set by a missing
value (NaN), and converts a column to a numeric dtype iff every field of
the column is NA-or-numeric.  Files are modelled as the list of their
lines. -/

/-- pandas' default `na_values` sentinel set (`pandas.io.parsers`,
`STR_NA_VALUES`). -/
def naValues : List String :=
  ["", "#N/A", "#N/A N/A", "#NA", "-1.#IND", "-1.#QNAN", "-NaN", "-nan",
   "1.#IND", "1.#QNAN", "<NA>", "N/A", "NA", "NULL", "NaN", "None",
   "n/a", "nan", "null"]

def needsQuote (s : String) : Bool :=
  s.data.any (fun c => c = ',' ∨ c = '"' ∨ c = '\n' ∨ c = '\r')

def dupQuotes : List Char → List Char
  | [] => []
  | c :: rest => if c = '"' then '"' :: '"' :: dupQuotes rest else c :: dupQuotes rest

/-- Minimal quoting (`csv.QUOTE_MINIMAL`), as used by `to_csv`. -/
def csvQuote (s : String) : String :=
  if needsQuote s then String.mk ('"' :: (dupQuotes s.data ++ ['"'])) else s

/-- Little-endian base-10 digits of `n`, with an explicit fuel bound. -/
def natDigitsRev (fuel : Nat) (n : Nat) : List Nat :=
  match fuel with
  | 0 => []
  | f + 1 => if n = 0 then [] else n % 10 :: natDigitsRev f (n / 10)

/-- Decimal digit string of a natural number. -/
def natStr (n : Nat) : String :=
  if n = 0 then "0"
  else String.mk (((natDigitsRev (n + 1) n).map Nat.digitChar).reverse)

/-- The decimal rendering `to_csv` gives the stored one-decimal float
`round(match, 1)`; defined for rationals whose denominator divides 10
(which is what `round(·, 1)` produces). -/
def renderFloat1 (q : ℚ) : String :=
  let n10 : ℤ := q.num * ((10 : ℤ) / (q.den : ℤ))
  let a := n10.natAbs
  (if n10 < 0 then "-" else "") ++ natStr (a / 10) ++ "." ++ natStr (a % 10)

/-- Big-endian digit-char fold. -/
def chFold (ds : List Char) : Nat :=
  ds.foldl (fun a c => 10 * a + digitVal c) 0

/-- `10 ^ k` computed in ℕ (kernel-friendly). -/
def pow10 (k : Nat) : Nat := 10 ^ k

/-- The fraction `n / d` scaled by a trailing exponent part, if the
remainder is a well-formed exponent (or empty).  The value is assembled
with `Rat.divInt` from integer arithmetic. -/
def withExp (n : ℤ) (d : ℕ) (rest : List Char) : Option ℚ :=
  match rest with
  | [] => some (Rat.divInt n d)
  | e :: tail =>
    if e = 'e' ∨ e = 'E' then
      let esgnSplit : Bool × List Char :=
        match tail with
        | '-' :: t => (true, t)
        | '+' :: t => (false, t)
        | _ => (false, tail)
      let ds := esgnSplit.2.takeWhile Char.isDigit
      let rest2 := esgnSplit.2.dropWhile Char.isDigit
      if ds = [] ∨ rest2 ≠ [] then none
      else if esgnSplit.1 then some (Rat.divInt n (d * pow10 (chFold ds)))
      else some (Rat.divInt (n * (pow10 (chFold ds) : ℤ)) d)
    else none

/-- Fraction-and-exponent continuation of the numeric-field conversion of
the `read_csv` parser after a leading integer-digit part `ip` (possibly
empty, for the `.5` form). -/
def parseNumTail (sgn : ℤ) (ip : List Char) : List Char → Option ℚ
  | [] => if ip = [] then none else withExp (sgn * (chFold ip : ℤ)) 1 []
  | c :: rest2 =>
    if c = '.' then
      let fp := rest2.takeWhile Char.isDigit
      let rest3 := rest2.dropWhile Char.isDigit
      if ip = [] ∧ fp = [] then none
      else
        withExp (sgn * ((chFold ip * pow10 fp.length + chFold fp : ℕ) : ℤ))
          (pow10 fp.length) rest3
    else if ip = [] then none
    else withExp (sgn * (chFold ip : ℤ)) 1 (c :: rest2)

/-- The numeric-field conversion of the `read_csv` parser: sign, decimal
digits with optional fraction, optional exponent.  `none` = the field is
not a number (the column stays non-numeric). -/
def parseNum (s : String) : Option ℚ :=
  let cs := s.data
  let sgnSplit : ℤ × List Char :=
    match cs with
    | c :: rest =>
      if c = '-' then (-1, rest) else if c = '+' then ((1 : ℤ), rest) else (1, cs)
    | [] => (1, [])
  let cs1 := sgnSplit.2
  let ip := cs1.takeWhile Char.isDigit
  parseNumTail sgnSplit.1 ip (cs1.dropWhile Char.isDigit)

/-- Tokenizer state: outside quotes, inside quotes, or just after a quote
character seen while inside quotes (which either doubles or closes). -/
inductive CsvSt where
  | plain : CsvSt
  | quoted : CsvSt
  | qseen : CsvSt

def splitLineS : CsvSt → List Char → List Char → List String
  | _, cur, [] => [String.mk cur.reverse]
  | CsvSt.plain, cur, c :: rest =>
    if c = ',' then String.mk cur.reverse :: splitLineS CsvSt.plain [] rest
    else if c = '"' then splitLineS CsvSt.quoted cur rest
    else splitLineS CsvSt.plain (c :: cur) rest
  | CsvSt.quoted, cur, c :: rest =>
    if c = '"' then splitLineS CsvSt.qseen cur rest
    else splitLineS CsvSt.quoted (c :: cur) rest
  | CsvSt.qseen, cur, c :: rest =>
    if c = '"' then splitLineS CsvSt.quoted ('"' :: cur) rest
    else if c = ',' then String.mk cur.reverse :: splitLineS CsvSt.plain [] rest
    else splitLineS CsvSt.plain (c :: cur) rest

/-- CSV line splitting with minimal quoting and doubled inner quotes (the
format `to_csv` produces). -/
def splitLine (cs : List Char) : List String :=
  splitLineS CsvSt.plain [] cs

/-- A reloaded field: a string, a numeric value, or missing (NaN). -/
inductive Cell where
  | s (v : String) : Cell
  | q (v : ℚ) : Cell
  | na : Cell
deriving DecidableEq

def isNAString (c : String) : Bool := naValues.contains c

/-- `read_csv` column dtype inference: a column is numeric iff every one of
its fields is an NA sentinel or parses as a number. -/
def colNumericOK (grid : List (List String)) (j : Nat) : Bool :=
  grid.all (fun row => isNAString (row.getD j "") || (parseNum (row.getD j "")).isSome)

def convRowFrom (grid : List (List String)) : Nat → List String → List Cell
  | _, [] => []
  | j, c :: rest =>
    (if isNAString c then Cell.na
     else
       match parseNum c with
       | some q => if colNumericOK grid j then Cell.q q else Cell.s c
       | none => Cell.s c) :: convRowFrom grid (j + 1) rest

/-- `pd.read_csv` on the saved file (given as its list of lines): header
line names the columns, every further line is a row of cells. -/
def load_history (lines : List String) : List (List Cell) :=
  match lines with
  | [] => []
  | _hdr :: dataLines =>
    let grid := dataLines.map (fun l => splitLine l.data)
    grid.map (fun row => convRowFrom grid 0 row)

def histHeader : String :=
  "Title,Match%,Feasibility,Amount,Deadline,Sponsor,Grant Summary,URL,Recommendation"

/-- Comma join of the fields of one CSV line. -/
def joinComma : List String → String
  | [] => ""
  | [c] => c
  | c :: rest => c ++ "," ++ joinComma rest

def rowCells (r : GrantRow) : List String :=
  [r.title, renderFloat1 r.matchPct, r.feasibility, r.amount, r.deadline,
   r.sponsor, r.summary, r.url, r.recommendation]

/-- `df.to_csv(CSV_PATH, index=False)` on the history table: the header
line followed by one minimally-quoted line per row. -/
def save_history (tbl : List GrantRow) : List String :=
  histHeader :: tbl.map (fun r => joinComma ((rowCells r).map csvQuote))

/-- The cells a row should reload as if every column came back with its
saved value: strings verbatim, the `Match%` float as a number. -/
def expectedCells (r : GrantRow) : List Cell :=
  [Cell.s r.title, Cell.q r.matchPct, Cell.s r.feasibility, Cell.s r.amount,
   Cell.s r.deadline, Cell.s r.sponsor, Cell.s r.summary, Cell.s r.url,
   Cell.s r.recommendation]

/-- ASCII whitespace trim (model of surrounding-whitespace stripping). -/
def asciiTrim (s : String) : String :=
  String.mk (((s.data.dropWhile pyWS).reverse.dropWhile pyWS).reverse)

/-- A string field that survives the `to_csv`/`read_csv` round trip
verbatim: not an NA sentinel, no character that forces quoting, not
numeric (even after trimming), and not a boolean/infinity literal. -/
def safeCell (c : String) : Bool :=
  !(naValues.contains c) && !(needsQuote c) && (parseNum c).isNone &&
  (parseNum (asciiTrim c)).isNone &&
  !(["true", "false", "inf", "-inf", "+inf", "infinity", "-infinity",
     "+infinity"].contains (lowerStr c))

def safeRow (r : GrantRow) : Bool :=
  safeCell r.title && safeCell r.feasibility && safeCell r.amount &&
  safeCell r.deadline && safeCell r.sponsor && safeCell r.summary &&
  safeCell r.url && safeCell r.recommendation && decide (r.matchPct.den ∣ 10)

/-! ### numpy's indirect introsort and the pandas descending sort

`df.sort_values(col, ascending=False)` computes
(`pandas/core/sorting.py`, `nargsort`):

```
non_nans = values[::-1]; non_nan_idx = np.arange(len(values))[::-1]
indexer  = non_nan_idx[non_nans.argsort(kind="quicksort")]
indexer  = indexer[::-1]
```

and `argsort(kind="quicksort")` is numpy's indirect introsort
(`npy_sort/quicksort.c.src`, `aquicksort_`): median-of-3 Hoare partition
with the larger side pushed on an explicit stack, insertion sort for
segments of at most `SMALL_QUICKSORT = 15` + 1 elements, and an indirect
heapsort (`npy_sort/heapsort.c.src`, `aheapsort_`) once the depth budget
`2*msb(n)` is spent.  The functions below transcribe those kernels; fuel
arguments bound the loops and are chosen large enough never to run out on
any terminating run of the C code. -/

def npyLTQ (a b : ℚ) : Bool := decide (a < b)

def aget (t : Array Nat) (i : Nat) : Nat := t.getD i 0

def aset (t : Array Nat) (i x : Nat) : Array Nat := t.setD i x

def aswap (t : Array Nat) (i j : Nat) : Array Nat :=
  let x := aget t i
  let y := aget t j
  aset (aset t i y) j x

def vgetQ (v : Array ℚ) (i : Nat) : ℚ := v.getD i 0

/-- The `while (pj > pl && LT(vp, v[*pk])) { *pj-- = *pk--; }` shift of the
indirect insertion sort; returns the updated array and the final `pj`
(fuel-recursive: `fuel ≥ pj` suffices). -/
def insShift (v : Array ℚ) (vp : ℚ) (pl : Nat) : Nat → Array Nat → Nat → Array Nat × Nat
  | 0, t, pj => (t, pj)
  | fuel + 1, t, pj =>
    if pl < pj ∧ npyLTQ vp (vgetQ v (aget t (pj - 1))) then
      insShift v vp pl fuel (aset t pj (aget t (pj - 1))) (pj - 1)
    else (t, pj)

/-- The `for (pi = pl + 1; pi <= pr; pi++)` loop of the indirect insertion
sort (fuel-recursive: `fuel ≥ pr + 1 - pi` suffices). -/
def insLoop (v : Array ℚ) (pl pr : Nat) : Nat → Array Nat → Nat → Array Nat
  | 0, t, _ => t
  | fuel + 1, t, pi =>
    if pi ≤ pr then
      let vi := aget t pi
      let sh := insShift v (vgetQ v vi) pl pi t pi
      insLoop v pl pr fuel (aset sh.1 sh.2 vi) (pi + 1)
    else t

/-- Indirect insertion sort of `t[pl..pr]` by the values `v`. -/
def insSortRange (v : Array ℚ) (t : Array Nat) (pl pr : Nat) : Array Nat :=
  insLoop v pl pr (pr + 1) t (pl + 1)

/-- `do ++pi; while (LT(v[*pi], vp));` — returns the final `pi`. -/
def scanUp (v : Array ℚ) (t : Array Nat) (vp : ℚ) : Nat → Nat → Nat
  | 0, pi => pi + 1
  | fuel + 1, pi =>
    let pi' := pi + 1
    if npyLTQ (vgetQ v (aget t pi')) vp then scanUp v t vp fuel pi' else pi'

/-- `do --pj; while (LT(vp, v[*pj]));` — returns the final `pj`. -/
def scanDown (v : Array ℚ) (t : Array Nat) (vp : ℚ) : Nat → Nat → Nat
  | 0, pj => pj - 1
  | fuel + 1, pj =>
    let pj' := pj - 1
    if npyLTQ vp (vgetQ v (aget t pj')) then scanDown v t vp fuel pj' else pj'

/-- The Hoare crossing loop of the partition; returns the array and the
final `pi`. -/
def partLoop (v : Array ℚ) (vp : ℚ) : Nat → Array Nat → Nat → Nat → Array Nat × Nat
  | 0, t, pi, _ => (t, pi)
  | fuel + 1, t, pi, pj =>
    let pi' := scanUp v t vp t.size pi
    let pj' := scanDown v t vp t.size pj
    if pj' ≤ pi' then (t, pi')
    else partLoop v vp fuel (aswap t pi' pj') pi' pj'

/-- One median-of-3 partition step on `t[pl..pr]`; returns the array and
the pivot's final position `pi`. -/
def partStep (v : Array ℚ) (t : Array Nat) (pl pr : Nat) : Array Nat × Nat :=
  let pm := pl + (pr - pl) / 2
  let t1 := if npyLTQ (vgetQ v (aget t pm)) (vgetQ v (aget t pl)) then aswap t pm pl else t
  let t2 := if npyLTQ (vgetQ v (aget t1 pr)) (vgetQ v (aget t1 pm)) then aswap t1 pr pm else t1
  let t3 := if npyLTQ (vgetQ v (aget t2 pm)) (vgetQ v (aget t2 pl)) then aswap t2 pm pl else t2
  let vp := vgetQ v (aget t3 pm)
  let t4 := aswap t3 pm (pr - 1)
  let res := partLoop v vp t4.size t4 pl (pr - 1)
  (aswap res.1 res.2 (pr - 1), res.2)

/-- `if (j < n && LT(v[a[j]], v[a[j+1]])) j++; if (LT(tmp, v[a[j]])) …`
sift-down loop of the indirect heapsort (`a` is 1-based at offset `o`);
returns the array and the final `i`. -/
def hsSiftLoop (v : Array ℚ) (o n : Nat) (vp : ℚ) : Nat → Array Nat → Nat → Nat → Array Nat × Nat
  | 0, t, i, _ => (t, i)
  | fuel + 1, t, i, j =>
    if j ≤ n then
      let j1 := if j < n ∧ npyLTQ (vgetQ v (aget t (o + j - 1))) (vgetQ v (aget t (o + j))) then j + 1 else j
      if npyLTQ vp (vgetQ v (aget t (o + j1 - 1))) then
        hsSiftLoop v o n vp fuel (aset t (o + i - 1) (aget t (o + j1 - 1))) j1 (j1 + j1)
      else (t, i)
    else (t, i)

/-- The heapify phase `for (l = n >> 1; l > 0; --l)`. -/
def heapifyLoop (v : Array ℚ) (o n : Nat) : Nat → Array Nat → Array Nat
  | 0, t => t
  | l + 1, t =>
    let tmp := aget t (o + l)
    let res := hsSiftLoop v o n (vgetQ v tmp) (n + 2) t (l + 1) (2 * (l + 1))
    heapifyLoop v o n l (aset res.1 (o + res.2 - 1) tmp)

/-- The extraction phase `for (; n > 1;)`. -/
def extractLoop (v : Array ℚ) (o : Nat) : Nat → Array Nat → Array Nat
  | 0, t => t
  | 1, t => t
  | n + 2, t =>
    let m := n + 2
    let tmp := aget t (o + m - 1)
    let t2 := aset t (o + m - 1) (aget t o)
    let res := hsSiftLoop v o (m - 1) (vgetQ v tmp) (m + 2) t2 1 2
    extractLoop v o (m - 1) (aset res.1 (o + res.2 - 1) tmp)

/-- Indirect heapsort of `t[pl..pr]` (numpy `aheapsort_`, shifted to start
at `pl`). -/
def aheapsortRange (v : Array ℚ) (t : Array Nat) (pl pr : Nat) : Array Nat :=
  let n := pr - pl + 1
  extractLoop v pl n (heapifyLoop v pl n (n / 2) t)

/-- The outer loop of numpy `aquicksort_`: partition while the segment
exceeds `SMALL_QUICKSORT = 15` elements minus one (i.e. `pr - pl > 15`),
pushing the larger side; insertion-sort small segments; fall back to
heapsort when the depth budget is spent. -/
def qsOuter (v : Array ℚ) : Nat → Array Nat → Nat → Nat → Int → List (Nat × Nat) → Array Nat
  | 0, t, _, _, _, _ => t
  | fuel + 1, t, pl, pr, depth, stack =>
    if 15 < pr - pl then
      if depth < 0 then
        let t2 := aheapsortRange v t pl pr
        match stack with
        | [] => t2
        | (lo, hi) :: rest => qsOuter v fuel t2 lo hi (depth - 1) rest
      else
        let res := partStep v t pl pr
        let pi := res.2
        if pi - pl < pr - pi then
          qsOuter v fuel res.1 pl (pi - 1) (depth - 1) ((pi + 1, pr) :: stack)
        else
          qsOuter v fuel res.1 (pi + 1) pr (depth - 1) ((pl, pi - 1) :: stack)
    else
      let t2 := insSortRange v t pl pr
      match stack with
      | [] => t2
      | (lo, hi) :: rest => qsOuter v fuel t2 lo hi depth rest

/-- Fuel-recursive binary logarithm (`npy_get_msb`). -/
def log2fuel : Nat → Nat → Nat
  | 0, _ => 0
  | f + 1, n => if 2 ≤ n then log2fuel f (n / 2) + 1 else 0

/-- `np.argsort(v, kind="quicksort")` (indirect introsort) as the
permutation it returns. -/
def npyArgsortQ (v : Array ℚ) : Array Nat :=
  let n := v.size
  if n = 0 then #[]
  else qsOuter v (4 * n + 64) (Array.mk (List.range n)) 0 (n - 1)
    (2 * (log2fuel n n : Int)) []

/-- pandas `nargsort(values, kind="quicksort", ascending=False)` (no-NaN
case): reverse, ascending argsort, map through the reversed index range,
reverse. -/
def nargsortDesc (v : Array ℚ) : List Nat :=
  let n := v.size
  let u : Array ℚ := Array.mk v.toList.reverse
  let ridx : List Nat := (List.range n).reverse
  ((npyArgsortQ u).toList.map (fun k => ridx.getD k 0)).reverse

def dummyRow : GrantRow :=
  { title := "", matchPct := 0, feasibility := "", amount := "", deadline := "",
    sponsor := "", summary := "", url := "", recommendation := "" }

/-- `df.sort_values("Match%", ascending=False, ignore_index=True)` with the
actual numpy introsort kernel: the rows gathered through the pandas
descending indexer. -/
def sort_values_qs (l : List GrantRow) : List GrantRow :=
  (nargsortDesc (Array.mk (l.map GrantRow.matchPct))).map (fun i => l.getD i dummyRow)

/-! ### Concrete instances used in the claim theorems -/

/-- An existing table row titled "Youth Success Fund". -/
def ySFRow : GrantRow :=
  { title := "Youth Success Fund", matchPct := 80, feasibility := "High",
    amount := "$50,000", deadline := "rolling", sponsor := "Acme",
    summary := "Helps youth", url := "https://a.org", recommendation := "ok" }

/-- A new candidate differing from `ySFRow` only by doubled whitespace in
the title (and a different URL). -/
def ySFRecWS : GrantRec :=
  { title := "Youth  Success Fund", sponsor := "Acme", amount := "$50,000",
    deadline := "rolling", summary := "Helps youth", url := "https://b.org" }

/-- A new candidate differing from `ySFRow` only by title case. -/
def ySFRecCase : GrantRec :=
  { title := "youth success fund", sponsor := "Acme", amount := "$50,000",
    deadline := "rolling", summary := "Helps youth", url := "https://c.org" }

/-- Seventeen rows with pairwise-distinct titles and identical scores, in
arrival order "0", "1", …, "16" — one more row than numpy's insertion-sort
cutoff. -/
def tieRows : List GrantRow :=
  (List.range 17).map (fun i => { dummyRow with title := toString i, matchPct := 50 })

/-- A table row whose `Amount` column holds the repository's own sentinel
"N/A". -/
def naRow : GrantRow :=
  { title := "Youth Success Fund", matchPct := Rat.divInt 851 10, feasibility := "High",
    amount := "N/A", deadline := "2099-01-01", sponsor := "Acme Foundation",
    summary := "Funds youth programs", url := "https://a.org/grant",
    recommendation := "Strong fit" }

/-- A row all of whose fields survive the CSV round trip. -/
def safeRowEx : GrantRow :=
  { title := "Youth Success Fund", matchPct := Rat.divInt 851 10, feasibility := "High",
    amount := "fifty thousand USD", deadline := "rolling",
    sponsor := "Acme Foundation", summary := "Funds youth programs",
    url := "https://a.org/grant", recommendation := "Strong fit" }

/-! ## Theorems

Helper lemmas first, then one theorem per claim (with its witness or
counterexample where required). -/

theorem ratFloor_eq_floor (q : ℚ) : q.floor = ⌊q⌋ := by
  rw [Rat.floor_def', ← Rat.floor_def]

theorem rhe_ge (q : ℚ) : q - 1/2 ≤ (rhe q : ℚ) := by
  unfold rhe
  rw [ratFloor_eq_floor]
  have h0 : ((⌊q⌋ : ℤ) : ℚ) ≤ q := Int.floor_le q
  have h1 : q < (⌊q⌋ : ℚ) + 1 := Int.lt_floor_add_one q
  split_ifs with hf hg he <;> push_cast <;> linarith

theorem rhe_le (q : ℚ) : (rhe q : ℚ) ≤ q + 1/2 := by
  unfold rhe
  rw [ratFloor_eq_floor]
  have h0 : ((⌊q⌋ : ℤ) : ℚ) ≤ q := Int.floor_le q
  have h1 : q < (⌊q⌋ : ℚ) + 1 := Int.lt_floor_add_one q
  split_ifs with hf hg he <;> push_cast
  · linarith
  · linarith
  · have : q - (⌊q⌋ : ℚ) = 1/2 := le_antisymm (not_lt.mp hg) (not_lt.mp hf)
    linarith
  · have : q - (⌊q⌋ : ℚ) = 1/2 := le_antisymm (not_lt.mp hg) (not_lt.mp hf)
    linarith

theorem pyRound1_le (q : ℚ) (B10 : ℤ) (h : q * 10 ≤ (B10 : ℚ)) :
    pyRound1 q ≤ (B10 : ℚ) / 10 := by
  unfold pyRound1
  have h1 : (rhe (q * 10) : ℚ) ≤ q * 10 + 1/2 := rhe_le (q * 10)
  have h2 : (rhe (q * 10) : ℚ) < (B10 : ℚ) + 1 := by linarith
  have h3 : rhe (q * 10) < B10 + 1 := by exact_mod_cast h2
  have h4 : ((rhe (q * 10) : ℤ) : ℚ) ≤ (B10 : ℚ) := by
    have : rhe (q * 10) ≤ B10 := by omega
    exact_mod_cast this
  linarith

theorem pyRound1_ge (q : ℚ) (B10 : ℤ) (h : (B10 : ℚ) ≤ q * 10) :
    (B10 : ℚ) / 10 ≤ pyRound1 q := by
  unfold pyRound1
  have h1 : q * 10 - 1/2 ≤ (rhe (q * 10) : ℚ) := rhe_ge (q * 10)
  have h2 : (B10 : ℚ) - 1 < (rhe (q * 10) : ℚ) := by linarith
  have h3 : B10 - 1 < rhe (q * 10) := by exact_mod_cast h2
  have h4 : ((B10 : ℤ) : ℚ) ≤ ((rhe (q * 10) : ℤ) : ℚ) := by
    have : B10 ≤ rhe (q * 10) := by omega
    exact_mod_cast this
  linarith

theorem rhe_intCast (n : ℤ) : rhe ((n : ℤ) : ℚ) = n := by
  unfold rhe
  rw [ratFloor_eq_floor, Int.floor_intCast]
  norm_num

theorem pyRound1_intCast10 (n : ℤ) (q : ℚ) (h : q * 10 = (n : ℚ)) :
    pyRound1 q = (n : ℚ) / 10 := by
  unfold pyRound1
  rw [h, rhe_intCast]

/-- C1 (counterexample): the code stores `round(cos*100, 1)` with no
`max(0, ·)` clamp, so the cosine value −1/2 — negative cosine similarity —
yields the stored score −50.0, not the spec's 0.0; in particular the score
is negative, contradicting "lies in [0,100] … never negative". -/
theorem c1_counterexample :
    matchScore (-(1 : ℚ)/2) = -50 ∧ specScore (-(1 : ℚ)/2) = 0 ∧
    matchScore (-(1 : ℚ)/2) < 0 := by
  have hm : matchScore (-(1 : ℚ)/2) = -50 := by
    unfold matchScore
    rw [pyRound1_intCast10 (-500) _ (by norm_num)]
    norm_num
  have hs : specScore (-(1 : ℚ)/2) = 0 := by
    unfold specScore
    have h0 : max (0 : ℚ) (-(1 : ℚ)/2) = 0 := max_eq_left (by norm_num)
    rw [h0, pyRound1_intCast10 0 _ (by norm_num)]
    norm_num
  exact ⟨hm, hs, by rw [hm]; norm_num⟩

/-- C1 (amended): the stored score is `round(cos*100, 1)` with no clamping:
for a cosine value in [−1, 1] it lies in [−100, 100], and whenever the
cosine value is nonnegative it agrees with the spec's `max(0, cos)`-based
formula (for a negative cosine the two can differ, per the
counterexample). -/
theorem c1_amended (c : ℚ) (h1 : -1 ≤ c) (h2 : c ≤ 1) :
    -100 ≤ matchScore c ∧ matchScore c ≤ 100 ∧
    (0 ≤ c → matchScore c = specScore c) := by
  refine ⟨?_, ?_, ?_⟩
  · have := pyRound1_ge (c * 100) (-1000) (by push_cast; linarith)
    unfold matchScore
    have hnum : ((-1000 : ℤ) : ℚ) / 10 = -100 := by norm_num
    rw [hnum] at this
    exact this
  · have := pyRound1_le (c * 100) 1000 (by push_cast; linarith)
    unfold matchScore
    have hnum : ((1000 : ℤ) : ℚ) / 10 = 100 := by norm_num
    rw [hnum] at this
    exact this
  · intro hc
    unfold matchScore specScore
    rw [max_eq_right hc]

/-- C1 (witness for the amended theorem at cosine value 1/2). -/
theorem c1_amended_witness :
    -1 ≤ (1 : ℚ)/2 ∧ (1 : ℚ)/2 ≤ 1 ∧
    (-100 ≤ matchScore (1/2) ∧ matchScore (1/2) ≤ 100 ∧
      (0 ≤ (1 : ℚ)/2 → matchScore (1/2) = specScore (1/2))) :=
  ⟨by norm_num, by norm_num, c1_amended (1/2) (by norm_num) (by norm_num)⟩

/-- C4 (confirmed): a deadline string is eligible iff it is the literal
"rolling" (case-insensitively), or its first 10 characters parse under
`strptime("%Y-%m-%d")` to a date on or after the evaluation-time `today`;
any string that fails to parse is ineligible (fail-closed). -/
theorem c4_deadline_eligibility (today : Date) (dl : String) :
    deadline_ok today dl = true ↔
      (lowerStr dl = "rolling" ∨
        ∃ d, parseYMD (String.mk (dl.data.take 10)) = some d ∧
          dateLe today d = true) := by
  unfold deadline_ok
  split_ifs with h
  · simp [h]
  · cases hp : parseYMD (String.mk (dl.data.take 10)) with
    | none => simp [h, hp]
    | some d => simp [h, hp]

theorem firstSuccessFrom_none {α : Type} (attempts : Nat → Option α)
    (h : ∀ i, attempts i = none) : ∀ n i, firstSuccessFrom attempts n i = none := by
  intro n
  induction n with
  | zero => intro i; rfl
  | succ m ih =>
    intro i
    unfold firstSuccessFrom
    rw [h i]
    exact ih (i + 1)

/-- C6 (counterexample): when every attempt raises the rate-limit error,
`app.py get_embedding` and `grant_app_final.py embed` do not abort the
operation — they return the fabricated all-zero 1536-dimensional embedding
vector as if the call had succeeded. -/
theorem c6_counterexample :
    get_embedding (fun _ => none) = List.replicate 1536 0 ∧
    embed (fun _ => none) = List.replicate 1536 0 :=
  ⟨rfl, rfl⟩

/-- C6 (amended): when the recognized rate-limit error occurs on every
attempt, `analyzer.py`'s `retry` wrapper does end in a terminal,
user-visible abort (`st.error` + `st.stop`, modelled `none`); but
`app.py get_embedding` (3 attempts) and `grant_app_final.py embed`
(5 attempts) instead return the dummy all-zero 1536-vector after an error
banner, continuing as if the call had succeeded. -/
theorem c6_amended (a b c : Nat → Option (List ℚ))
    (ha : ∀ i, a i = none) (hb : ∀ i, b i = none) (hc : ∀ i, c i = none) :
    retry a = none ∧
    get_embedding b = List.replicate 1536 0 ∧
    embed c = List.replicate 1536 0 := by
  refine ⟨?_, ?_, ?_⟩
  · exact firstSuccessFrom_none a ha API_RETRY 0
  · unfold get_embedding
    rw [firstSuccessFrom_none b hb app_RETRIES 0]
  · unfold embed
    rw [firstSuccessFrom_none c hc gaf_RETRIES 0]

/-- C6 (witness for the amended theorem, at the all-rate-limited oracle). -/
theorem c6_amended_witness :
    retry (fun _ => (none : Option (List ℚ))) = none ∧
    get_embedding (fun _ => none) = List.replicate 1536 0 ∧
    embed (fun _ => none) = List.replicate 1536 0 :=
  c6_amended _ _ _ (fun _ => rfl) (fun _ => rfl) (fun _ => rfl)

/-- C8 (counterexample): when every prompt attempt parses to an empty JSON
array (so the filtered record count 0 stays below the minimum 10 for all 4
attempts), `test.py fetch_grants` does not return its accumulated (empty)
list — it aborts the whole action with `st.error(...); st.stop()`. -/
theorem c8_counterexample : fetch_grants (fun _ => "[]") = FetchOut.stopped := rfl

/-- C8 (amended): on budget exhaustion below the requested minimum the two
adapters behave differently: `grant_app_Xfinal.py get_grants_json` returns
the empty list (never aborts, never pads), but `test.py fetch_grants`
aborts the whole action via `st.stop()` instead of returning its short
list. -/
theorem c8_amended (ra rb : Nat → String)
    (hra : ∀ i, jsonParse (ra i) = none ∧ greedySpan (ra i).data = none)
    (hrb : ∀ i, ∃ cleaned, attemptClean (rb i) = some cleaned ∧
      cleaned.length < NUM_ROWS) :
    get_grants_json ra = Json.arr [] ∧ fetch_grants rb = FetchOut.stopped := by
  constructor
  · unfold get_grants_json PROMPT_RETRIES
    unfold ggjLoop
    rw [(hra 0).1, (hra 0).2]
    unfold ggjLoop
    rw [(hra 1).1, (hra 1).2]
    unfold ggjLoop
    rw [(hra 2).1, (hra 2).2]
    rfl
  · have step : ∀ i n cl, attemptClean (rb i) = some cl → cl.length < NUM_ROWS →
        fetchLoop rb i (n + 1) = fetchLoop rb (i + 1) n := by
      intro i n cl h hlen
      have e1 : fetchLoop rb i (n + 1) =
          match attemptClean (rb i) with
          | none => FetchOut.exn
          | some cleaned =>
            if NUM_ROWS ≤ cleaned.length then FetchOut.ok (cleaned.take NUM_ROWS)
            else fetchLoop rb (i + 1) n := rfl
      rw [e1, h]
      exact if_neg (not_le.mpr hlen)
    obtain ⟨c0, hc0, hl0⟩ := hrb 0
    obtain ⟨c1, hc1, hl1⟩ := hrb 1
    obtain ⟨c2, hc2, hl2⟩ := hrb 2
    obtain ⟨c3, hc3, hl3⟩ := hrb 3
    unfold fetch_grants PROMPT_TRY
    rw [step 0 3 c0 hc0 hl0, step 1 2 c1 hc1 hl1, step 2 1 c2 hc2 hl2,
      step 3 0 c3 hc3 hl3]
    rfl

/-- C8 (witness for the amended theorem: unparseable responses for the one
adapter, parseable-but-empty arrays for the other). -/
theorem c8_amended_witness :
    get_grants_json (fun _ => "no json here") = Json.arr [] ∧
    fetch_grants (fun _ => "[]") = FetchOut.stopped :=
  c8_amended _ _ (fun _ => ⟨rfl, rfl⟩) (fun _ => ⟨[], rfl, by decide⟩)

/-- C5 (counterexample): a candidate whose title differs from an existing
row's title only by doubled interior whitespace (URLs distinct) is *not*
recognised as a duplicate — the handler adds it — because the code compares
titles only case-insensitively (`str.lower()`), with no whitespace
normalization. -/
theorem c5_counterexample :
    isDuplicate [ySFRow] ySFRecWS = false ∧
    (analyzeStep ⟨2026, 10, 12⟩ [ySFRow] (some ySFRecWS) (1/2) "rec").2 =
      AnalyzeSignal.added := by
  exact ⟨by decide, by decide⟩

/-- C5 (amended): a new candidate is rejected as a duplicate (non-fatal
"already present" signal, table unchanged) iff some existing row's URL
matches its URL case-insensitively or some existing row's title matches its
title case-insensitively — exact string comparison after lowercasing, with
no whitespace normalization (a candidate differing only in title case is
rejected; one differing only in whitespace is not). -/
theorem c5_amended (today : Date) (tbl : List GrantRow) (g : GrantRec)
    (cos : ℚ) (short : String) :
    (isDuplicate tbl g = true ↔
      ∃ r, r ∈ tbl ∧
        (lowerStr r.url = lowerStr g.url ∨ lowerStr r.title = lowerStr g.title)) ∧
    (deadline_ok today g.deadline = true → isDuplicate tbl g = true →
      analyzeStep today tbl (some g) cos short = (tbl, AnalyzeSignal.alreadyPresent)) := by
  constructor
  · unfold isDuplicate
    rw [Bool.or_eq_true, List.any_eq_true, List.any_eq_true]
    constructor
    · rintro (⟨r, hr, he⟩ | ⟨r, hr, he⟩)
      · exact ⟨r, hr, Or.inl (by simpa using he)⟩
      · exact ⟨r, hr, Or.inr (by simpa using he)⟩
    · rintro ⟨r, hr, he | he⟩
      · exact Or.inl ⟨r, hr, by simpa using he⟩
      · exact Or.inr ⟨r, hr, by simpa using he⟩
  · intro hdl hdup
    show (if ¬ deadline_ok today g.deadline = true then (tbl, AnalyzeSignal.deadlinePassed)
      else if isDuplicate tbl g = true then (tbl, AnalyzeSignal.alreadyPresent)
      else _) = (tbl, AnalyzeSignal.alreadyPresent)
    rw [hdl, hdup]
    simp

/-- C5 (witness for the amended theorem: a candidate differing from the
existing row only in title case is rejected with the table unchanged). -/
theorem c5_amended_witness :
    analyzeStep ⟨2026, 10, 12⟩ [ySFRow] (some ySFRecCase) 0 "x" =
      ([ySFRow], AnalyzeSignal.alreadyPresent) :=
  (c5_amended ⟨2026, 10, 12⟩ [ySFRow] ySFRecCase 0 "x").2 (by decide) (by decide)

theorem find?_beq_self (k : String) :
    ∀ l : List String, l.contains k = true → l.find? (fun x => x == k) = some k := by
  intro l
  induction l with
  | nil => intro h; simp at h
  | cons a t ih =>
    intro h
    by_cases ha : (a == k) = true
    · have hak : a = k := by simpa using ha
      simp only [List.find?, ha]
      rw [hak]
    · have ha' : (a == k) = false := by simpa using ha
      simp only [List.find?, ha']
      apply ih
      simp only [List.contains_cons, Bool.or_eq_true] at h
      rcases h with h | h
      · have : k = a := by simpa using h
        exact absurd (by simpa using this.symm) (by simpa using ha)
      · exact h

theorem jgetLast_mapPairs (keys : List String) (f : String → Json) (k : String)
    (hk : keys.contains k = true) :
    jgetLast (keys.map (fun x => (x, f x))) k = some (f k) := by
  unfold jgetLast
  rw [← List.map_reverse, List.find?_map]
  have hrev : (keys.reverse).find? (fun x => x == k) = some k :=
    find?_beq_self k _ (by simpa using hk)
  have hcomp : ((fun p : String × Json => p.1 == k) ∘ fun x => (x, f x)) =
      (fun x => x == k) := rfl
  rw [hcomp, hrev]
  rfl

theorem jgetLast_append_single (fs : List (String × Json)) (a : String) (v : Json)
    (k : String) :
    jgetLast (fs ++ [(a, v)]) k = if a == k then some v else jgetLast fs k := by
  unfold jgetLast
  rw [List.reverse_append]
  have he : ([(a, v)] : List (String × Json)).reverse ++ fs.reverse =
      (a, v) :: fs.reverse := by simp
  rw [he]
  by_cases h : (a == k) = true
  · simp [List.find?, h]
  · simp [List.find?, h]

/-- The record built by `scrape` has exactly the six canonical keys, in
source order. -/
theorem mkRecord_keys (url : String) (fs : List (String × Json)) :
    (mkRecord url fs).map Prod.fst = canonKeys := by
  unfold mkRecord
  rw [List.map_map]
  exact List.map_id canonKeys

/-- Looking up any canonical key in the built record yields the parsed
object's value at that key — after the `obj["url"]=url` overwrite — with
the `"N/A"` sentinel for missing keys. -/
theorem mkRecord_get (url : String) (fs : List (String × Json)) (k : String)
    (hk : canonKeys.contains k = true) :
    jgetLast (mkRecord url fs) k =
      some ((jgetLast (fs ++ [("url", Json.str url)]) k).getD (Json.str "N/A")) := by
  unfold mkRecord
  exact jgetLast_mapPairs canonKeys _ k hk

theorem mkRecord_get_ne_url (url : String) (fs : List (String × Json)) (k : String)
    (hk : canonKeys.contains k = true) (hne : k ≠ "url") :
    jgetLast (mkRecord url fs) k = some ((jgetLast fs k).getD (Json.str "N/A")) := by
  rw [mkRecord_get url fs k hk, jgetLast_append_single]
  have hfalse : ("url" == k) = false := by
    simpa using fun h : "url" = k => hne h.symm
  simp [hfalse]

theorem mkRecord_url (url : String) (fs : List (String × Json)) :
    jgetLast (mkRecord url fs) "url" = some (Json.str url) := by
  rw [mkRecord_get url fs "url" (by decide), jgetLast_append_single]
  simp

/-- C2 (counterexample): the input text contains the single well-formed
JSON object `{"title": "A", "nested": {"x": 1}}` surrounded by prose, yet
`scrape` does not return its fields: the bare regex `\{.*?\}` captures only
up to the *first* closing brace, `json.loads` of that truncated span raises
`JSONDecodeError`, and the exception escapes `scrape` uncaught. -/
theorem c2_counterexample :
    scrape "https://x.org"
      "Result: \x7b\"title\": \"A\", \"nested\": \x7b\"x\": 1\x7d\x7d end" =
      ScrapeOut.exn := by rfl

/-- C2 (amended): the Response Extractor returns the object's canonical
fields — each of the six keys, with the sentinel "N/A" for the keys the
object lacks and `url` forced to the request URL — exactly when the span
the regex chain selects itself parses as a JSON object; a bare object whose
first closing brace does not close it (any nested object) instead makes the
uncaught `json.loads` exception escape. -/
theorem c2_amended (url raw : String) (span : List Char) (fs : List (String × Json))
    (hsel : (fencedSearch raw.data).orElse (fun _ => bareSearch raw.data) = some span)
    (hparse : jsonParse (String.mk span) = some (Json.obj fs)) :
    scrape url raw = ScrapeOut.found (mkRecord url fs) ∧
    (mkRecord url fs).map Prod.fst = canonKeys ∧
    (∀ k, canonKeys.contains k = true → k ≠ "url" →
      jgetLast (mkRecord url fs) k = some ((jgetLast fs k).getD (Json.str "N/A"))) ∧
    jgetLast (mkRecord url fs) "url" = some (Json.str url) := by
  refine ⟨?_, mkRecord_keys url fs, fun k hk hne => mkRecord_get_ne_url url fs k hk hne,
    mkRecord_url url fs⟩
  simp only [scrape, hsel, hparse, scrapeObj]

/-- C2 (witness for the amended theorem: prose around a flat object with
only a `title` key; the record comes back with all six keys and "N/A"
fills). -/
theorem c2_amended_witness :
    scrape "https://x.org" "Here: \x7b\"title\": \"A\"\x7d done" =
      ScrapeOut.found (mkRecord "https://x.org" [("title", Json.str "A")]) :=
  (c2_amended "https://x.org" "Here: \x7b\"title\": \"A\"\x7d done"
    ("\x7b\"title\": \"A\"\x7d".data) [("title", Json.str "A")] rfl rfl).1

/-- C3 (code bug, evaluation at the failing input): on a model response
whose first brace span is not valid JSON, `scrape` neither returns a record
nor the well-defined `None` failure — the `json.loads` call raises an
uncaught `JSONDecodeError` (the `if not m: return None` guard only covers
the no-regex-match case). -/
theorem c3_bug_eval :
    scrape "https://x.org" "see \x7bnot json\x7d ok" = ScrapeOut.exn := by rfl

/-- C10 (confirmed): whenever `scrape` returns a record, the record has
exactly the six canonical keys in source order, and its `url` field is the
URL argument passed to `scrape` — any url supplied by the model inside its
JSON is overwritten by `obj["url"] = url` before the record is built. -/
theorem c10_scrape_record (url raw : String) (r : List (String × Json))
    (h : scrape url raw = ScrapeOut.found r) :
    r.map Prod.fst = canonKeys ∧ jgetLast r "url" = some (Json.str url) := by
  unfold scrape at h
  cases hsel : (fencedSearch raw.data).orElse (fun _ => bareSearch raw.data) with
  | none => rw [hsel] at h; exact absurd h (by simp)
  | some span =>
    rw [hsel] at h
    simp only [] at h
    cases hparse : jsonParse (String.mk span) with
    | none => rw [hparse] at h; exact absurd h (by simp)
    | some j =>
      rw [hparse] at h
      simp only [] at h
      cases hobj : scrapeObj j with
      | none => rw [hobj] at h; exact absurd h (by simp)
      | some fs =>
        rw [hobj] at h
        simp only [] at h
        have : mkRecord url fs = r := by simpa using h
        rw [← this]
        exact ⟨mkRecord_keys url fs, mkRecord_url url fs⟩

/-- C10 (witness): the model's JSON supplies `url = "https://model.example"`,
but the returned record's `url` is the argument `"https://arg.org"`. -/
theorem c10_witness :
    (mkRecord "https://arg.org"
      [("title", Json.str "B"), ("url", Json.str "https://model.example")]).map Prod.fst =
        canonKeys ∧
    jgetLast (mkRecord "https://arg.org"
      [("title", Json.str "B"), ("url", Json.str "https://model.example")]) "url" =
        some (Json.str "https://arg.org") :=
  c10_scrape_record "https://arg.org"
    "\x7b\"title\": \"B\", \"url\": \"https://model.example\"\x7d" _ rfl

theorem filter_orderedInsert_pos (p : GrantRow → Bool) (a : GrantRow)
    (l : List GrantRow) (hpa : p a = true) (himp : ∀ b, p b = true → rowLe a b) :
    (List.orderedInsert rowLe a l).filter p = a :: l.filter p := by
  induction l with
  | nil => simp [List.orderedInsert, hpa]
  | cons b t ih =>
    by_cases hab : rowLe a b
    · rw [List.orderedInsert, if_pos hab]
      simp [List.filter_cons, hpa]
    · rw [List.orderedInsert, if_neg hab]
      have hpb : p b = false := by
        cases hq : p b
        · rfl
        · exact absurd (himp b hq) hab
      simp [List.filter_cons, hpb, ih]

theorem filter_orderedInsert_neg (p : GrantRow → Bool) (a : GrantRow)
    (l : List GrantRow) (hpa : p a = false) :
    (List.orderedInsert rowLe a l).filter p = l.filter p := by
  induction l with
  | nil => simp [List.orderedInsert, hpa]
  | cons b t ih =>
    by_cases hab : rowLe a b
    · rw [List.orderedInsert, if_pos hab]
      simp [List.filter_cons, hpa]
    · rw [List.orderedInsert, if_neg hab]
      simp [List.filter_cons, ih]

theorem insertionSort_filter (c : ℚ) (l : List GrantRow) :
    (List.insertionSort rowLe l).filter (fun r => r.matchPct == c) =
      l.filter (fun r => r.matchPct == c) := by
  induction l with
  | nil => rfl
  | cons a t ih =>
    simp only [List.insertionSort]
    by_cases hpa : ((fun r : GrantRow => r.matchPct == c) a) = true
    · rw [filter_orderedInsert_pos _ a _ hpa ?_]
      · rw [ih]
        simp [List.filter_cons, hpa]
      · intro b hb
        have h1 : a.matchPct = c := by simpa using hpa
        have h2 : b.matchPct = c := by simpa using hb
        unfold rowLe
        rw [h1, h2]
    · have hpa' : ((fun r : GrantRow => r.matchPct == c) a) = false := by
        simpa using hpa
      rw [filter_orderedInsert_neg _ a _ hpa']
      rw [ih]
      simp [List.filter_cons, hpa']

/-- C7 (counterexample): seventeen candidates with identical scores — one
more than numpy's insertion-sort cutoff, so pandas' default
`argsort(kind="quicksort")` runs a genuine introsort partition — come out
of `sort_values("Match%", ascending=False)` in the order
0, 9, 15, 14, 13, 12, 11, 10, 8, 1, 7, 6, 5, 4, 3, 2, 16: equal-score
candidates do *not* keep their arrival order, refuting the stability half
of the claim. -/
theorem c7_counterexample :
    (sort_values_qs tieRows).map GrantRow.title =
      ["0", "9", "15", "14", "13", "12", "11", "10", "8",
       "1", "7", "6", "5", "4", "3", "2", "16"] ∧
    tieRows.map GrantRow.title =
      ["0", "1", "2", "3", "4", "5", "6", "7", "8", "9", "10", "11", "12",
       "13", "14", "15", "16"] ∧
    tieRows.all (fun r => r.matchPct == 50) = true ∧
    (sort_values_qs tieRows).map GrantRow.title ≠ tieRows.map GrantRow.title := by
  refine ⟨by decide, by decide, by decide, by decide⟩

/-- C7 (amended): the ranked output is sorted by match score descending and
is a permutation of the input; in numpy's stable (insertion-sort) regime —
tables of at most 16 rows — equal scores moreover keep their arrival order
(`sort_values_desc` is that regime's semantics of
`sort_values(ascending=False)`: reverse, stable ascending argsort,
reverse); beyond 16 rows the default quicksort kernel gives no such
guarantee and concretely permutes ties. -/
theorem c7_amended (l : List GrantRow) :
    (sort_values_desc l).Perm l ∧
    List.Sorted (fun a b : GrantRow => b.matchPct ≤ a.matchPct) (sort_values_desc l) ∧
    ∀ c : ℚ, (sort_values_desc l).filter (fun r => r.matchPct == c) =
      l.filter (fun r => r.matchPct == c) := by
  unfold sort_values_desc
  refine ⟨?_, ?_, ?_⟩
  · exact ((List.reverse_perm _).trans
      (List.perm_insertionSort rowLe l.reverse)).trans (List.reverse_perm l)
  · have hs : List.Pairwise (fun a b : GrantRow => a.matchPct ≤ b.matchPct)
        (List.insertionSort rowLe l.reverse) :=
      List.sorted_insertionSort rowLe l.reverse
    exact List.pairwise_reverse.mpr hs
  · intro c
    rw [List.filter_reverse, insertionSort_filter c l.reverse,
      List.filter_reverse, List.reverse_reverse]

theorem natDigitsRev_eq_digits : ∀ fuel n, n ≤ fuel → natDigitsRev fuel n = Nat.digits 10 n := by
  intro fuel
  induction fuel with
  | zero =>
    intro n hn
    have h0 : n = 0 := by omega
    subst h0
    simp [natDigitsRev]
  | succ f ih =>
    intro n hn
    unfold natDigitsRev
    by_cases h0 : n = 0
    · subst h0; simp
    · rw [if_neg h0]
      have hlt : n / 10 ≤ f := by
        have : n / 10 < n := Nat.div_lt_self (Nat.pos_of_ne_zero h0) (by norm_num)
        omega
      rw [ih (n / 10) hlt]
      exact (Nat.digits_def' (by norm_num) (Nat.pos_of_ne_zero h0)).symm

theorem digitVal_digitChar (d : Nat) (h : d < 10) : digitVal (Nat.digitChar d) = d := by
  interval_cases d <;> decide

theorem isDigit_digitChar (d : Nat) (h : d < 10) : (Nat.digitChar d).isDigit = true := by
  interval_cases d <;> decide

theorem chFold_append_one (xs : List Char) (c : Char) :
    chFold (xs ++ [c]) = 10 * chFold xs + digitVal c := by
  unfold chFold
  rw [List.foldl_append]
  rfl

theorem chFold_rev_map (ds : List Nat) (h : ∀ d ∈ ds, d < 10) :
    chFold ((ds.map Nat.digitChar).reverse) = Nat.ofDigits 10 ds := by
  induction ds with
  | nil => rfl
  | cons d t ih =>
    simp only [List.map_cons, List.reverse_cons]
    rw [chFold_append_one, ih (fun x hx => h x (List.mem_cons_of_mem _ hx)),
      digitVal_digitChar d (h d (List.mem_cons_self _ _)), Nat.ofDigits_cons]
    omega

theorem chFold_natStr (n : Nat) : chFold (natStr n).data = n := by
  unfold natStr
  by_cases h0 : n = 0
  · subst h0; rfl
  · rw [if_neg h0]
    show chFold (((natDigitsRev (n + 1) n).map Nat.digitChar).reverse) = n
    rw [natDigitsRev_eq_digits (n + 1) n (by omega),
      chFold_rev_map _ (fun d hd => Nat.digits_lt_base (by norm_num) hd)]
    exact Nat.ofDigits_digits 10 n

theorem natStr_all_digits (n : Nat) : ∀ c ∈ (natStr n).data, c.isDigit = true := by
  unfold natStr
  by_cases h0 : n = 0
  · subst h0
    intro c hc
    have : c = '0' := by simpa using hc
    subst this
    decide
  · rw [if_neg h0]
    intro c hc
    have hc' : c ∈ ((natDigitsRev (n + 1) n).map Nat.digitChar).reverse := hc
    rw [natDigitsRev_eq_digits (n + 1) n (by omega)] at hc'
    rw [List.mem_reverse, List.mem_map] at hc'
    obtain ⟨d, hd, rfl⟩ := hc'
    exact isDigit_digitChar d (Nat.digits_lt_base (by norm_num) hd)

theorem natStr_ne_nil (n : Nat) : (natStr n).data ≠ [] := by
  unfold natStr
  by_cases h0 : n = 0
  · subst h0; decide
  · rw [if_neg h0]
    show ((natDigitsRev (n + 1) n).map Nat.digitChar).reverse ≠ []
    rw [natDigitsRev_eq_digits (n + 1) n (by omega)]
    simp [Nat.digits_ne_nil_iff_ne_zero, h0]

theorem natStr_lt10 (m : Nat) (h : m < 10) : (natStr m).data = [Nat.digitChar m] := by
  interval_cases m <;> rfl

theorem takeWhile_all (p : Char → Bool) (l : List Char) (h : ∀ c ∈ l, p c = true) :
    l.takeWhile p = l ∧ l.dropWhile p = [] := by
  induction l with
  | nil => exact ⟨rfl, rfl⟩
  | cons a t ih =>
    have iht := ih (fun c hc => h c (List.mem_cons_of_mem _ hc))
    have ha := h a (List.mem_cons_self _ _)
    simp [List.takeWhile_cons, List.dropWhile_cons, ha, iht.1, iht.2]

theorem takeWhile_all_append (p : Char → Bool) (l : List Char) (c0 : Char)
    (rest : List Char) (hl : ∀ c ∈ l, p c = true) (hc : p c0 = false) :
    (l ++ c0 :: rest).takeWhile p = l ∧ (l ++ c0 :: rest).dropWhile p = c0 :: rest := by
  induction l with
  | nil => simp [List.takeWhile_cons, List.dropWhile_cons, hc]
  | cons a t ih =>
    have iht := ih (fun c hcm => hl c (List.mem_cons_of_mem _ hcm))
    have ha := hl a (List.mem_cons_self _ _)
    simp [List.takeWhile_cons, List.dropWhile_cons, ha, iht.1, iht.2]

theorem parseNum_digits_dot (neg : Bool) (D1 D2 : List Char)
    (h1 : ∀ c ∈ D1, c.isDigit = true) (h2 : ∀ c ∈ D2, c.isDigit = true)
    (hne1 : D1 ≠ []) :
    parseNum (String.mk ((if neg then ['-'] else []) ++ (D1 ++ '.' :: D2))) =
      some (Rat.divInt ((if neg then (-1 : ℤ) else 1) *
        ((chFold D1 * pow10 D2.length + chFold D2 : ℕ) : ℤ)) (pow10 D2.length)) := by
  have hdot : ('.' : Char).isDigit = false := by decide
  have htk := takeWhile_all_append Char.isDigit D1 '.' D2 h1 hdot
  have htk2 := takeWhile_all Char.isDigit D2 h2
  obtain ⟨d, D1', rfl⟩ := List.exists_cons_of_ne_nil hne1
  have hd : d.isDigit = true := h1 d (List.mem_cons_self _ _)
  have hdm : d ≠ '-' := by
    intro he; rw [he] at hd; exact absurd hd (by decide)
  have hdp : d ≠ '+' := by
    intro he; rw [he] at hd; exact absurd hd (by decide)
  have hdm' : (d = '-') = False := eq_false hdm
  have hdp' : (d = '+') = False := eq_false hdp
  have htk1 : List.takeWhile Char.isDigit (d :: (D1' ++ '.' :: D2)) = d :: D1' := by
    simpa using htk.1
  have htk1' : List.dropWhile Char.isDigit (d :: (D1' ++ '.' :: D2)) = '.' :: D2 := by
    simpa using htk.2
  have htail : ∀ sg : ℤ, parseNumTail sg (d :: D1') ('.' :: D2) =
      some (Rat.divInt
        (sg * ((chFold (d :: D1') * pow10 D2.length + chFold D2 : ℕ) : ℤ))
        (pow10 D2.length)) := by
    intro sg
    simp only [parseNumTail]
    rw [htk2.1, htk2.2]
    simp [withExp]
  cases neg with
  | false =>
    unfold parseNum
    simp only [Bool.false_eq_true, if_false, List.nil_append, List.cons_append,
      hdm', hdp', htk1, htk1', htail 1]
  | true =>
    unfold parseNum
    simp [List.singleton_append, List.cons_append, htk1, htk1', htail (-1)]

theorem parseNum_congr_data (s t : String) (h : s.data = t.data) :
    parseNum s = parseNum t := by
  unfold parseNum
  rw [h]

theorem chFold_single (c : Char) : chFold [c] = digitVal c := by
  simp [chFold]

theorem divInt_n10 (q : ℚ) (h : q.den ∣ 10) :
    Rat.divInt (q.num * ((10 : ℤ) / (q.den : ℤ))) 10 = q := by
  have hd : (q.den : ℤ) ∣ 10 := by exact_mod_cast h
  have hk : (q.den : ℤ) * ((10 : ℤ) / (q.den : ℤ)) = 10 := Int.mul_ediv_cancel' hd
  rw [Rat.divInt_eq_div]
  push_cast
  set k : ℤ := (10 : ℤ) / (q.den : ℤ) with hkdef
  have h10 : ((q.den : ℚ)) * (k : ℚ) = 10 := by exact_mod_cast hk
  have hk0 : (k : ℚ) ≠ 0 := by
    intro h0
    rw [h0, mul_zero] at h10
    norm_num at h10
  calc ((q.num : ℚ) * k) / 10 = ((q.num : ℚ) * k) / ((q.den : ℚ) * k) := by rw [h10]
    _ = (q.num : ℚ) / (q.den : ℚ) := by rw [mul_div_mul_right _ _ hk0]
    _ = q := Rat.num_div_den q

theorem renderFloat1_data (q : ℚ) :
    (renderFloat1 q).data =
      (if q.num * ((10 : ℤ) / (q.den : ℤ)) < 0 then ['-'] else []) ++
        ((natStr ((q.num * ((10 : ℤ) / (q.den : ℤ))).natAbs / 10)).data ++
          '.' :: (natStr ((q.num * ((10 : ℤ) / (q.den : ℤ))).natAbs % 10)).data) := by
  have hdot : (("." : String)).data = ['.'] := rfl
  have hdash : (("-" : String)).data = ['-'] := rfl
  unfold renderFloat1
  by_cases hneg : q.num * ((10 : ℤ) / (q.den : ℤ)) < 0 <;>
    simp [hneg, hdot, hdash]

theorem parseNum_renderFloat1 (q : ℚ) (h : q.den ∣ 10) :
    parseNum (renderFloat1 q) = some q := by
  set n10 : ℤ := q.num * ((10 : ℤ) / (q.den : ℤ)) with hn10
  set a : ℕ := n10.natAbs with hadef
  have ha10 : a % 10 < 10 := Nat.mod_lt _ (by norm_num)
  have hD2 : (natStr (a % 10)).data = [Nat.digitChar (a % 10)] := natStr_lt10 _ ha10
  have hnum : chFold (natStr (a / 10)).data * pow10 ([Nat.digitChar (a % 10)] : List Char).length +
      chFold [Nat.digitChar (a % 10)] = a := by
    rw [chFold_natStr, chFold_single, digitVal_digitChar _ ha10]
    show a / 10 * pow10 1 + a % 10 = a
    have : pow10 1 = 10 := rfl
    rw [this]
    omega
  have hpow : ((pow10 ([Nat.digitChar (a % 10)] : List Char).length : ℕ) : ℤ) = 10 := by
    show ((pow10 1 : ℕ) : ℤ) = 10
    rfl
  have hdata : (renderFloat1 q).data =
      (if n10 < 0 then ['-'] else []) ++
        ((natStr (a / 10)).data ++ '.' :: [Nat.digitChar (a % 10)]) := by
    rw [renderFloat1_data q, ← hn10, ← hadef, hD2]
  by_cases hneg : n10 < 0
  · have happ := parseNum_digits_dot true (natStr (a / 10)).data [Nat.digitChar (a % 10)]
      (natStr_all_digits _) (fun c hc => by
        have : c = Nat.digitChar (a % 10) := by simpa using hc
        rw [this]; exact isDigit_digitChar _ ha10)
      (natStr_ne_nil _)
    rw [parseNum_congr_data (renderFloat1 q)
      (String.mk ((if (true : Bool) then ['-'] else []) ++
        ((natStr (a / 10)).data ++ '.' :: [Nat.digitChar (a % 10)])))
      (by rw [hdata]; simp [hneg])]
    rw [happ]
    congr 1
    rw [hnum, hpow]
    have hn : ((a : ℤ)) = -n10 := by
      have := Int.ofNat_natAbs_of_nonpos (le_of_lt hneg)
      rw [← hadef] at this
      omega
    rw [show (if (true : Bool) then (-1 : ℤ) else 1) = -1 from rfl]
    rw [show (-1 : ℤ) * (a : ℤ) = n10 by omega]
    exact divInt_n10 q h
  · have happ := parseNum_digits_dot false (natStr (a / 10)).data [Nat.digitChar (a % 10)]
      (natStr_all_digits _) (fun c hc => by
        have : c = Nat.digitChar (a % 10) := by simpa using hc
        rw [this]; exact isDigit_digitChar _ ha10)
      (natStr_ne_nil _)
    rw [parseNum_congr_data (renderFloat1 q)
      (String.mk ((if (false : Bool) then ['-'] else []) ++
        ((natStr (a / 10)).data ++ '.' :: [Nat.digitChar (a % 10)])))
      (by rw [hdata]; simp [hneg])]
    rw [happ]
    congr 1
    rw [hnum, hpow]
    have hn : ((a : ℤ)) = n10 := by
      have := Int.natAbs_of_nonneg (not_lt.mp hneg)
      rw [← hadef] at this
      exact this
    rw [show (if (false : Bool) then (-1 : ℤ) else 1) = 1 from rfl]
    rw [show (1 : ℤ) * (a : ℤ) = n10 by omega]
    exact divInt_n10 q h

theorem digit_not_quote (c : Char) (h : c.isDigit = true) :
    (c = ',' ∨ c = '"' ∨ c = '\n' ∨ c = '\r') = False := by
  apply eq_false
  rintro (rfl | rfl | rfl | rfl) <;> exact absurd h (by decide)

theorem needsQuote_renderFloat1 (q : ℚ) : needsQuote (renderFloat1 q) = false := by
  unfold needsQuote
  rw [List.any_eq_false]
  intro c hc
  rw [renderFloat1_data] at hc
  rw [List.mem_append] at hc
  rcases hc with hc | hc
  · have : c = '-' := by
      by_cases hneg : q.num * ((10 : ℤ) / (q.den : ℤ)) < 0
      · rw [if_pos hneg] at hc; simpa using hc
      · rw [if_neg hneg] at hc; simp at hc
    subst this
    decide
  · rw [List.mem_append] at hc
    rcases hc with hc | hc
    · simp [digit_not_quote c (natStr_all_digits _ c hc)]
    · rcases List.mem_cons.mp hc with rfl | hc
      · decide
      · simp [digit_not_quote c (natStr_all_digits _ c hc)]

theorem renderFloat1_not_na (q : ℚ) (h : q.den ∣ 10) :
    naValues.contains (renderFloat1 q) = false := by
  cases hx : naValues.contains (renderFloat1 q) with
  | false => rfl
  | true =>
    exfalso
    have hmem : renderFloat1 q ∈ naValues := by
      simpa using hx
    have hall : ∀ s ∈ naValues, (parseNum s).isNone = true := by decide
    have hnone := hall _ hmem
    rw [parseNum_renderFloat1 q h] at hnone
    simp at hnone

theorem splitLineS_chunk (cs : List Char) : ∀ cur tail,
    (∀ c ∈ cs, (c = ',') = False ∧ (c = '"') = False) →
    splitLineS CsvSt.plain cur (cs ++ tail) =
      splitLineS CsvSt.plain (cs.reverse ++ cur) tail := by
  induction cs with
  | nil => intro cur tail _; simp
  | cons a t ih =>
    intro cur tail h
    have ha := h a (List.mem_cons_self _ _)
    simp only [List.cons_append, splitLineS, ha.1, ha.2, if_false]
    rw [show ((a :: t).reverse ++ cur : List Char) = t.reverse ++ (a :: cur) from by simp]
    exact ih (a :: cur) tail (fun c hc => h c (List.mem_cons_of_mem _ hc))

theorem needsQuote_chars (s : String) (h : needsQuote s = false) :
    ∀ c ∈ s.data, (c = ',') = False ∧ (c = '"') = False := by
  unfold needsQuote at h
  rw [List.any_eq_false] at h
  intro c hc
  have := h c hc
  constructor
  · exact eq_false fun he => by simp [he] at this
  · exact eq_false fun he => by simp [he] at this

theorem string_mk_data (s : String) : String.mk s.data = s := rfl

theorem splitLine_joinComma : ∀ (cells : List String),
    cells ≠ [] → (∀ s ∈ cells, needsQuote s = false) →
    splitLine (joinComma cells).data = cells := by
  intro cells
  induction cells with
  | nil => intro h _; exact absurd rfl h
  | cons c rest ih =>
    intro _ hq
    have hchars := needsQuote_chars c (hq c (List.mem_cons_self _ _))
    cases rest with
    | nil =>
      show splitLineS CsvSt.plain [] (joinComma [c]).data = [c]
      have hj : joinComma [c] = c := rfl
      rw [hj]
      rw [show c.data = c.data ++ ([] : List Char) from by simp]
      rw [splitLineS_chunk c.data [] [] hchars]
      have hnil : splitLineS CsvSt.plain (c.data.reverse ++ []) [] =
          [String.mk (c.data.reverse ++ []).reverse] := rfl
      rw [hnil, show ((c.data.reverse ++ [] : List Char)).reverse = c.data from by simp,
        string_mk_data]
    | cons c2 rest2 =>
      have hj : joinComma (c :: c2 :: rest2) = c ++ "," ++ joinComma (c2 :: rest2) := rfl
      show splitLineS CsvSt.plain [] (joinComma (c :: c2 :: rest2)).data = _
      rw [hj]
      have hdata : (c ++ "," ++ joinComma (c2 :: rest2)).data =
          c.data ++ ',' :: (joinComma (c2 :: rest2)).data := by
        simp [String.data_append]
      rw [hdata]
      rw [splitLineS_chunk c.data _ _ hchars]
      have hstep : splitLineS CsvSt.plain (c.data.reverse ++ [])
          (',' :: (joinComma (c2 :: rest2)).data) =
          String.mk (c.data.reverse ++ []).reverse ::
            splitLineS CsvSt.plain [] (joinComma (c2 :: rest2)).data := rfl
      rw [hstep, show ((c.data.reverse ++ [] : List Char)).reverse = c.data from by simp,
        string_mk_data]
      exact congrArg (List.cons c)
        (ih (by simp) (fun s hs => hq s (List.mem_cons_of_mem _ hs)))

theorem csvQuote_id (s : String) (h : needsQuote s = false) : csvQuote s = s := by
  unfold csvQuote
  rw [h]
  simp

theorem safeCell_spec (c : String) (h : safeCell c = true) :
    naValues.contains c = false ∧ needsQuote c = false ∧ parseNum c = none := by
  unfold safeCell at h
  simp only [Bool.and_eq_true, Bool.not_eq_true'] at h
  refine ⟨h.1.1.1.1, h.1.1.1.2, ?_⟩
  have := h.1.1.2
  rwa [Option.isNone_iff_eq_none] at this

theorem safeRow_spec (r : GrantRow) (h : safeRow r = true) :
    safeCell r.title = true ∧ safeCell r.feasibility = true ∧
    safeCell r.amount = true ∧ safeCell r.deadline = true ∧
    safeCell r.sponsor = true ∧ safeCell r.summary = true ∧
    safeCell r.url = true ∧ safeCell r.recommendation = true ∧
    r.matchPct.den ∣ 10 := by
  unfold safeRow at h
  simp only [Bool.and_eq_true, decide_eq_true_eq] at h
  exact ⟨h.1.1.1.1.1.1.1.1, h.1.1.1.1.1.1.1.2, h.1.1.1.1.1.1.2, h.1.1.1.1.1.2,
    h.1.1.1.1.2, h.1.1.1.2, h.1.1.2, h.1.2, h.2⟩

theorem load_history_cons (hdr : String) (dataLines : List String) :
    load_history (hdr :: dataLines) =
      (dataLines.map (fun l => splitLine l.data)).map
        (convRowFrom (dataLines.map (fun l => splitLine l.data)) 0) := rfl

theorem colNumericOK_match (tbl : List GrantRow) (hsafe : ∀ r ∈ tbl, safeRow r = true) :
    colNumericOK (tbl.map rowCells) 1 = true := by
  unfold colNumericOK
  rw [List.all_eq_true]
  intro row hrow
  rw [List.mem_map] at hrow
  obtain ⟨r, hr, rfl⟩ := hrow
  have hden := (safeRow_spec r (hsafe r hr)).2.2.2.2.2.2.2.2
  have hgd : (rowCells r).getD 1 "" = renderFloat1 r.matchPct := rfl
  rw [hgd, parseNum_renderFloat1 _ hden]
  simp

theorem convRow_safe (grid : List (List String)) (r : GrantRow)
    (hsafe : safeRow r = true) (hcol : colNumericOK grid 1 = true) :
    convRowFrom grid 0 (rowCells r) = expectedCells r := by
  obtain ⟨h1, h2, h3, h4, h5, h6, h7, h8, hden⟩ := safeRow_spec r hsafe
  obtain ⟨h1a, _, h1c⟩ := safeCell_spec _ h1
  obtain ⟨h2a, _, h2c⟩ := safeCell_spec _ h2
  obtain ⟨h3a, _, h3c⟩ := safeCell_spec _ h3
  obtain ⟨h4a, _, h4c⟩ := safeCell_spec _ h4
  obtain ⟨h5a, _, h5c⟩ := safeCell_spec _ h5
  obtain ⟨h6a, _, h6c⟩ := safeCell_spec _ h6
  obtain ⟨h7a, _, h7c⟩ := safeCell_spec _ h7
  obtain ⟨h8a, _, h8c⟩ := safeCell_spec _ h8
  have hisna : ∀ s : String, naValues.contains s = false → isNAString s = false :=
    fun s hs => hs
  simp only [rowCells, convRowFrom, expectedCells,
    hisna _ h1a, hisna _ h2a, hisna _ h3a, hisna _ h4a, hisna _ h5a,
    hisna _ h6a, hisna _ h7a, hisna _ h8a,
    h1c, h2c, h3c, h4c, h5c, h6c, h7c, h8c,
    hisna _ (renderFloat1_not_na r.matchPct hden),
    parseNum_renderFloat1 r.matchPct hden, hcol, Bool.false_eq_true, if_false, if_true]

/-- C9 (amended): the `save_history`/`load_history` round trip reproduces a
table exactly — each string column verbatim and the `Match%` column as its
numeric value — provided every cell is CSV-safe: not one of pandas' default
NA sentinels (such as "N/A"), free of separator/quote/newline characters,
and not itself numeric-, boolean- or infinity-shaped.  Cells holding the
repository's "N/A" sentinel instead come back as missing values. -/
theorem c9_amended (tbl : List GrantRow) (hsafe : tbl.all safeRow = true) :
    load_history (save_history tbl) = tbl.map expectedCells := by
  have hsafe' : ∀ r ∈ tbl, safeRow r = true := List.all_eq_true.mp hsafe
  unfold save_history
  rw [load_history_cons]
  have hline : ∀ r ∈ tbl,
      splitLine (joinComma ((rowCells r).map csvQuote)).data = rowCells r := by
    intro r hr
    obtain ⟨h1, h2, h3, h4, h5, h6, h7, h8, hden⟩ := safeRow_spec r (hsafe' r hr)
    have hcells : ∀ s ∈ rowCells r, needsQuote s = false := by
      intro s hs
      simp only [rowCells, List.mem_cons, List.not_mem_nil, or_false] at hs
      rcases hs with rfl | rfl | rfl | rfl | rfl | rfl | rfl | rfl | rfl
      · exact (safeCell_spec _ h1).2.1
      · exact needsQuote_renderFloat1 _
      · exact (safeCell_spec _ h2).2.1
      · exact (safeCell_spec _ h3).2.1
      · exact (safeCell_spec _ h4).2.1
      · exact (safeCell_spec _ h5).2.1
      · exact (safeCell_spec _ h6).2.1
      · exact (safeCell_spec _ h7).2.1
      · exact (safeCell_spec _ h8).2.1
    have hqs : (rowCells r).map csvQuote = rowCells r := by
      rw [List.map_congr_left (fun s hs => csvQuote_id s (hcells s hs))]
      exact List.map_id _
    rw [hqs]
    exact splitLine_joinComma (rowCells r) (by simp [rowCells]) hcells
  have hmap : ((tbl.map (fun r => joinComma ((rowCells r).map csvQuote))).map
      (fun l => splitLine l.data)) = tbl.map rowCells := by
    rw [List.map_map]
    exact List.map_congr_left (fun r hr => hline r hr)
  rw [hmap, List.map_map]
  exact List.map_congr_left
    (fun r hr => convRow_safe _ r (hsafe' r hr) (colNumericOK_match tbl hsafe'))

/-- C9 (witness for the amended theorem at a one-row CSV-safe table). -/
theorem c9_amended_witness :
    load_history (save_history [safeRowEx]) = [safeRowEx].map expectedCells :=
  c9_amended [safeRowEx] (by decide)

/-- C9 (counterexample): a table row whose `Amount` column holds the
repository's own sentinel string "N/A" does not survive the
`save_history`/`load_history` round trip: `pd.read_csv`'s default NA-value
handling turns the cell into a missing value (NaN), not the string "N/A",
so the reloaded table is not string-equal to the saved one. -/
theorem c9_counterexample :
    load_history (save_history [naRow]) ≠ [expectedCells naRow] ∧
    load_history (save_history [naRow]) =
      [[Cell.s "Youth Success Fund", Cell.q (Rat.divInt 851 10), Cell.s "High",
        Cell.na, Cell.s "2099-01-01", Cell.s "Acme Foundation",
        Cell.s "Funds youth programs", Cell.s "https://a.org/grant",
        Cell.s "Strong fit"]] := by
  exact ⟨by decide, by decide⟩

end GrantFinder
